import Mathlib

/-!
# MatFree core — verification development

A shallow embedding of the MatFree engine's core (the dense `Matrix`
value type, the runtime `Value` variant, the `Environment` scope chain,
the lexer and the tree-walking interpreter), translated from the C++
sources (`src/core/value.{h,cpp}`, `src/core/environment.h`,
`src/core/interpreter.{h,cpp}`, `engine/src/core/{token.h,lexer.cpp}`),
together with theorems settling the specification's claims about it.

Modelling conventions:
* C++ `double` is modelled by `ℚ` (exact rational arithmetic).  Every
  concrete computation a theorem below evaluates involves only values on
  which IEEE-754 double arithmetic is exact, so the rational model agrees
  with the source on those inputs.
* C++ exceptions (`RuntimeError`, other `std::exception`s, and the
  control-flow signal structs `BreakSignal`/`ContinueSignal`/`ReturnSignal`)
  are modelled by explicit result constructors threaded through execution.
* Out-of-bounds reads of the backing `std::vector<double>` (undefined
  behaviour in the source) are modelled by `List.getD _ _ 0`, i.e. the
  read yields the stored element when the flat offset is inside the
  backing store and `0` otherwise.
* Unbounded recursion in the interpreter (loops, user-function calls) is
  modelled with a fuel parameter; exhausted fuel is a distinguished
  outcome that no theorem below ever produces on its concrete inputs.
-/

/- The Batteries rational-number operations are `@[irreducible]`, which
blocks definitional evaluation of the concrete programs the theorems
below run; restore ordinary reducibility so `rfl` can compute with `ℚ`. -/
set_option allowUnsafeReducibility true in
attribute [semireducible] Rat.add Rat.mul Rat.sub Rat.div Rat.neg Rat.inv

namespace MatFree

/-! ## Matrix (src/core/value.h, src/core/value.cpp)

`Matrix` is a dense 2-D array of doubles in row-major layout.  The source
keeps the invariant `data_.size() == rows_ * cols_`; theorems that need it
carry it as a hypothesis. -/

structure Matrix where
  rows : ℕ
  cols : ℕ
  data : List ℚ
  deriving Repr, DecidableEq

namespace Matrix

/-- `Matrix::operator()(row, col)` — unchecked row-major access
`data_[row * cols_ + col]`. -/
def get (m : Matrix) (r c : ℕ) : ℚ := m.data.getD (r * m.cols + c) 0

/-- Linear access `Matrix::operator()(idx)` — unchecked `data_[idx]`. -/
def getLin (m : Matrix) (i : ℕ) : ℚ := m.data.getD i 0

/-- `Matrix::numel()` — `data_.size()`. -/
def numel (m : Matrix) : ℕ := m.data.length

/-- `Matrix::isEmpty()` — `data_.empty()`. -/
def isEmpty (m : Matrix) : Bool := m.data.isEmpty

/-- `Matrix::isScalar()` — `rows_ == 1 && cols_ == 1`. -/
def isScalar (m : Matrix) : Bool := m.rows == 1 && m.cols == 1

/-- `Matrix::isVector()`. -/
def isVector (m : Matrix) : Bool := m.rows == 1 || m.cols == 1

/-- `Matrix(rows, cols)` — zero-filled. -/
def ofZeros (rows cols : ℕ) : Matrix := ⟨rows, cols, List.replicate (rows * cols) 0⟩

/-- `Matrix::scalar(val)` — the canonical 1×1 matrix. -/
def scalar (val : ℚ) : Matrix := ⟨1, 1, [val]⟩

/-- `Matrix::eye(n)` — the n×n identity.  The source writes `m(i, i) = 1.0`
into a zero matrix; in the flat row-major layout entry `idx` is `1` exactly
when its row `idx / n` equals its column `idx % n`. -/
def eye (n : ℕ) : Matrix :=
  ⟨n, n, (List.range (n * n)).map fun idx => if idx / n = idx % n then (1 : ℚ) else 0⟩

/-- `Matrix::scalarValue()` — throws `RuntimeError("Not a scalar")` unless 1×1.
Here the value is returned through `Except`; the message is the payload. -/
def scalarValue (m : Matrix) : Except String ℚ :=
  if m.isScalar then .ok (m.data.getD 0 0) else .error "Not a scalar"

/-- The error message `Matrix::broadcastCheck` raises, naming both shapes. -/
def dimErrMsg (a b : Matrix) : String :=
  "Matrix dimensions must agree (" ++ toString a.rows ++ "x" ++ toString a.cols ++
    " vs " ++ toString b.rows ++ "x" ++ toString b.cols ++ ")"

/-- `Matrix::broadcastCheck` (value.cpp:43-65): the if-chain deciding the
result shape of an elementwise binary operation, erroring on any other
shape combination. -/
def broadcastCheck (a b : Matrix) : Except String (ℕ × ℕ) :=
  if a.rows = b.rows ∧ a.cols = b.cols then .ok (a.rows, a.cols)
  else if a.isScalar then .ok (b.rows, b.cols)
  else if b.isScalar then .ok (a.rows, a.cols)
  else if a.rows = b.rows ∧ (a.cols = 1 ∨ b.cols = 1) then .ok (a.rows, max a.cols b.cols)
  else if a.cols = b.cols ∧ (a.rows = 1 ∨ b.rows = 1) then .ok (max a.rows b.rows, a.cols)
  else .error (dimErrMsg a b)

/-- `Matrix::getWithBroadcast` (value.cpp:67-71). -/
def getWithBroadcast (m : Matrix) (r c : ℕ) : ℚ :=
  m.get (if m.rows = 1 then 0 else r) (if m.cols = 1 then 0 else c)

/-- The shared shape of `operator+`, `operator-`, `elementMul`, `elementDiv`,
`elementPow` and the six comparisons: `broadcastCheck`, then fill an `r × c`
result with `f (a.getWithBroadcast i j) (b.getWithBroadcast i j)`. -/
def broadcastBinOp (f : ℚ → ℚ → ℚ) (a b : Matrix) : Except String Matrix := do
  let (r, c) ← broadcastCheck a b
  .ok ⟨r, c, (List.range (r * c)).map fun idx =>
    f (a.getWithBroadcast (idx / c) (idx % c)) (b.getWithBroadcast (idx / c) (idx % c))⟩

/-- `std::pow` restricted to the integer exponents the claims exercise;
non-integer exponents (never inspected by any theorem here) yield `0`. -/
def qPow (x y : ℚ) : ℚ := if y.den = 1 then x ^ y.num else 0

def matAdd (a b : Matrix) : Except String Matrix := broadcastBinOp (· + ·) a b
def matSub (a b : Matrix) : Except String Matrix := broadcastBinOp (· - ·) a b
def elementMul (a b : Matrix) : Except String Matrix := broadcastBinOp (· * ·) a b
def elementDiv (a b : Matrix) : Except String Matrix := broadcastBinOp (· / ·) a b
def elementPow (a b : Matrix) : Except String Matrix := broadcastBinOp qPow a b

def cmpQ (b : Bool) : ℚ := if b then 1 else 0

def matEq (a b : Matrix) : Except String Matrix := broadcastBinOp (fun x y => cmpQ (x == y)) a b
def matNe (a b : Matrix) : Except String Matrix := broadcastBinOp (fun x y => cmpQ (x != y)) a b
def matLt (a b : Matrix) : Except String Matrix := broadcastBinOp (fun x y => cmpQ (x < y)) a b
def matGt (a b : Matrix) : Except String Matrix := broadcastBinOp (fun x y => cmpQ (x > y)) a b
def matLe (a b : Matrix) : Except String Matrix := broadcastBinOp (fun x y => cmpQ (x ≤ y)) a b
def matGe (a b : Matrix) : Except String Matrix := broadcastBinOp (fun x y => cmpQ (x ≥ y)) a b

/-- `Matrix::operator*(double s)` — elementwise scalar multiply. -/
def scalarMul (m : Matrix) (s : ℚ) : Matrix := ⟨m.rows, m.cols, m.data.map (· * s)⟩

/-- `Matrix::operator/(double s)`. -/
def scalarDivBy (m : Matrix) (s : ℚ) : Matrix := ⟨m.rows, m.cols, m.data.map (· / s)⟩

/-- `Matrix::operator-()` — unary negation. -/
def neg (m : Matrix) : Matrix := ⟨m.rows, m.cols, m.data.map (-·)⟩

/-- `Matrix::power(double s)` — elementwise power by a scalar. -/
def powerScalar (m : Matrix) (s : ℚ) : Matrix := ⟨m.rows, m.cols, m.data.map (qPow · s)⟩

/-- The inner triple-loop accumulation of `Matrix::operator*`:
`sum += (*this)(i, k) * other(k, j)` for `k = 0 .. cols_-1`. -/
def dotSum (a b : Matrix) (i j : ℕ) : ℚ :=
  ((List.range a.cols).map fun k => a.get i k * b.get k j).sum

/-- `Matrix::operator*` (value.cpp:93-115) — matrix multiplication: scalar
operands degrade to scalar multiply, otherwise inner dimensions must agree. -/
def matMul (a b : Matrix) : Except String Matrix :=
  if a.isScalar then .ok (scalarMul b (a.data.getD 0 0))
  else if b.isScalar then .ok (scalarMul a (b.data.getD 0 0))
  else if a.cols ≠ b.rows then
    .error ("Inner matrix dimensions must agree for multiplication (" ++
      toString a.rows ++ "x" ++ toString a.cols ++ " * " ++
      toString b.rows ++ "x" ++ toString b.cols ++ ")")
  else .ok ⟨a.rows, b.cols, (List.range (a.rows * b.cols)).map fun idx =>
    dotSum a b (idx / b.cols) (idx % b.cols)⟩

/-- `Matrix::transpose()`. -/
def transpose (m : Matrix) : Matrix :=
  ⟨m.cols, m.rows, (List.range (m.cols * m.rows)).map fun idx =>
    m.get (idx % m.rows) (idx / m.rows)⟩

/-- `Matrix::horzcat` (value.cpp:362-381): all non-empty inputs must share
the first input's row count. -/
def horzcat (ms : List Matrix) : Except String Matrix :=
  match ms with
  | [] => .ok ⟨0, 0, []⟩
  | m0 :: _ =>
    let rows := m0.rows
    if ms.all fun m => m.rows == rows || m.isEmpty then
      let totalCols := (ms.map cols).sum
      .ok ⟨rows, totalCols, (List.range rows).flatMap fun i =>
        ms.flatMap fun m => (List.range m.cols).map fun j => m.get i j⟩
    else .error "Dimensions of arrays being concatenated are not consistent"

/-- `Matrix::vertcat` (value.cpp:383-402). -/
def vertcat (ms : List Matrix) : Except String Matrix :=
  match ms with
  | [] => .ok ⟨0, 0, []⟩
  | m0 :: _ =>
    let colsN := m0.cols
    if ms.all fun m => m.cols == colsN || m.isEmpty then
      let totalRows := (ms.map rows).sum
      .ok ⟨totalRows, colsN, ms.flatMap fun m =>
        (List.range (m.rows * colsN)).map fun idx => m.get (idx / colsN) (idx % colsN)⟩
    else .error "Dimensions of arrays being concatenated are not consistent"

end Matrix

/-! ## Lexer (engine/src/core/token.h, engine/src/core/lexer.cpp)

Transcribed over `List Char`.  Source line/column tracking, which no claim
inspects, is not threaded; lexical errors keep their message text.  The
numeric value of a `NUMBER` token is computed exactly in `ℚ` from its
digits (the source rounds through `std::stod`; no claim inspects it). -/

inductive TokenType where
  | NUMBER | STRING | IDENTIFIER
  | IF | ELSEIF | ELSE | END | FOR | WHILE | SWITCH | CASE | OTHERWISE
  | TRY | CATCH | FUNCTION | RETURN | BREAK | CONTINUE | GLOBAL | PERSISTENT
  | CLASSDEF | PROPERTIES | METHODS | EVENTS | ENUMERATION | TRUE_KW | FALSE_KW
  | PLUS | MINUS | STAR | SLASH | BACKSLASH | CARET
  | DOT_STAR | DOT_SLASH | DOT_BACKSLASH | DOT_CARET
  | TRANSPOSE | DOT_TRANSPOSE
  | EQ | NE | LT | GT | LE | GE
  | AND | OR | SHORT_AND | SHORT_OR | NOT
  | ASSIGN
  | LPAREN | RPAREN | LBRACKET | RBRACKET | LBRACE | RBRACE
  | COMMA | SEMICOLON | COLON | DOT | AT
  | NEWLINE | ELLIPSIS
  | EOF_TOKEN
  deriving Repr, DecidableEq

structure Token where
  type : TokenType
  lexeme : String
  numValue : ℚ := 0
  imagValue : ℚ := 0
  isComplex : Bool := false
  deriving Repr, DecidableEq

namespace Lexer

/-- The keyword table `Lexer::keywords_`. -/
def keywordType (s : String) : Option TokenType :=
  if s = "if" then some .IF
  else if s = "elseif" then some .ELSEIF
  else if s = "else" then some .ELSE
  else if s = "end" then some .END
  else if s = "for" then some .FOR
  else if s = "while" then some .WHILE
  else if s = "switch" then some .SWITCH
  else if s = "case" then some .CASE
  else if s = "otherwise" then some .OTHERWISE
  else if s = "try" then some .TRY
  else if s = "catch" then some .CATCH
  else if s = "function" then some .FUNCTION
  else if s = "return" then some .RETURN
  else if s = "break" then some .BREAK
  else if s = "continue" then some .CONTINUE
  else if s = "global" then some .GLOBAL
  else if s = "persistent" then some .PERSISTENT
  else if s = "classdef" then some .CLASSDEF
  else if s = "properties" then some .PROPERTIES
  else if s = "methods" then some .METHODS
  else if s = "events" then some .EVENTS
  else if s = "enumeration" then some .ENUMERATION
  else if s = "true" then some .TRUE_KW
  else if s = "false" then some .FALSE_KW
  else none

/-- `Lexer::isTransposeContext` (lexer.cpp:132-150): a quote is TRANSPOSE
exactly after these token types. -/
def isTransposeContext (lastType : TokenType) : Bool :=
  match lastType with
  | .IDENTIFIER | .NUMBER | .RPAREN | .RBRACKET | .RBRACE
  | .TRANSPOSE | .DOT_TRANSPOSE | .END | .TRUE_KW | .FALSE_KW => true
  | _ => false

/-- `Lexer::skipWhitespace` (lexer.cpp:87-101) as a single structural loop:
in normal mode (`inCont = false`) it skips space/tab/CR, and three
consecutive `.` enter continuation mode; in continuation mode it consumes
to end of line, swallows the newline, and returns to normal mode — exactly
the inner `while (current != '\n') advance(); advance();` of the source. -/
def skipWsAux (inCont : Bool) (input : List Char) : List Char :=
  match input with
  | [] => []
  | c :: rest =>
    if inCont then
      if c = '\n' then skipWsAux false rest else skipWsAux true rest
    else if c = ' ' ∨ c = '\t' ∨ c = '\r' then skipWsAux false rest
    else
      match c, rest with
      | '.', '.' :: '.' :: rest2 => skipWsAux true rest2
      | _, _ => c :: rest

def skipWhitespace (input : List Char) : List Char := skipWsAux false input

/-- `Lexer::skipLineComment` (lexer.cpp:103-108): consumes up to but not
including the newline. -/
def skipLineComment (input : List Char) : List Char := input.dropWhile (· ≠ '\n')

/-- `Lexer::skipBlockComment` (lexer.cpp:110-124): `%{`/`%}` nest. -/
def skipBlockComment (depth : ℕ) : List Char → List Char
  | [] => []
  | '%' :: '{' :: rest => skipBlockComment (depth + 1) rest
  | '%' :: '}' :: rest => if depth ≤ 1 then rest else skipBlockComment (depth - 1) rest
  | _ :: rest => skipBlockComment depth rest

/-- The loop of `Lexer::scanString` (lexer.cpp:342-367), after the opening
delimiter: a doubled delimiter is an escaped literal, a newline is
"Unterminated string literal", and end of input ends the token. -/
def scanStringLoop (delim : Char) : List Char → Except String (List Char × List Char)
  | [] => .ok ([], [])
  | c :: rest =>
    if c = delim then
      match rest with
      | d :: rest2 =>
        if d = delim then
          match scanStringLoop delim rest2 with
          | .ok (s, r) => .ok (delim :: s, r)
          | .error e => .error e
        else .ok ([], rest)
      | [] => .ok ([], [])
    else if c = '\n' then .error "Unterminated string literal"
    else
      match scanStringLoop delim rest with
      | .ok (s, r) => .ok (c :: s, r)
      | .error e => .error e

/-- `Lexer::scanString`: the input starts at the opening delimiter, which is
consumed first. -/
def scanString (delim : Char) (input : List Char) : Except String (Token × List Char) :=
  match scanStringLoop delim (input.drop 1) with
  | .ok (s, rest) => .ok ({ type := .STRING, lexeme := String.mk s }, rest)
  | .error e => .error e

def digitsToNat (ds : List Char) : ℕ :=
  ds.foldl (fun acc d => acc * 10 + (d.toNat - '0'.toNat)) 0

/-- The exact rational value of a scanned numeral
(integer part, fraction digits, exponent sign and digits). -/
def numeralValue (intPart fracPart : List Char) (expNeg : Bool) (expPart : List Char) : ℚ :=
  let base : ℚ := (digitsToNat intPart : ℚ) +
    (digitsToNat fracPart : ℚ) / ((10 : ℚ) ^ fracPart.length)
  let e : ℚ := (10 : ℚ) ^ (digitsToNat expPart)
  if expNeg then base / e else base * e

/-- `Lexer::scanNumber` (lexer.cpp:293-340): integer digits, a decimal part
only when the character after the dot does not begin a `.`-operator, an
optional exponent, an optional `i`/`j` complex suffix. -/
def scanNumber (input : List Char) : Token × List Char :=
  let intPart := input.takeWhile Char.isDigit
  let rest1 := input.dropWhile Char.isDigit
  let hasDec := rest1.headD '\x00' = '.' ∧
    (rest1.drop 1).headD '\x00' ∉ ['.', '*', '/', '\\', '^', '\'']
  let fracPart := if hasDec then (rest1.drop 1).takeWhile Char.isDigit else []
  let rest2 := if hasDec then (rest1.drop 1).dropWhile Char.isDigit else rest1
  let hasExp := rest2.headD '\x00' = 'e' ∨ rest2.headD '\x00' = 'E'
  let rest3 := if hasExp then rest2.drop 1 else rest2
  let expSign := rest3.headD '\x00' = '+' ∨ rest3.headD '\x00' = '-'
  let expNeg := hasExp ∧ rest3.headD '\x00' = '-'
  let rest4 := if hasExp ∧ expSign then rest3.drop 1 else rest3
  let expPart := if hasExp then rest4.takeWhile Char.isDigit else []
  let rest5 := if hasExp then rest4.dropWhile Char.isDigit else rest4
  let isCpx := (rest5.headD '\x00' = 'i' ∨ rest5.headD '\x00' = 'j') ∧
    ¬ ((rest5.drop 1).headD '\x00').isAlphanum ∧ (rest5.drop 1).headD '\x00' ≠ '_'
  let rest6 := if isCpx then rest5.drop 1 else rest5
  let value := numeralValue intPart fracPart expNeg expPart
  let lexeme := String.mk (input.take (input.length - rest6.length))
  if isCpx then
    ({ type := .NUMBER, lexeme := lexeme, numValue := 0, imagValue := value,
       isComplex := true }, rest6)
  else
    ({ type := .NUMBER, lexeme := lexeme, numValue := value }, rest6)

/-- `Lexer::scanIdentifierOrKeyword` (lexer.cpp:369-384). -/
def scanIdentifierOrKeyword (input : List Char) : Token × List Char :=
  let chars := input.takeWhile fun c => c.isAlphanum ∨ c = '_'
  let rest := input.dropWhile fun c => c.isAlphanum ∨ c = '_'
  let s := String.mk chars
  let t := (keywordType s).getD .IDENTIFIER
  ({ type := t, lexeme := s }, rest)

def mkTok (t : TokenType) (lexeme : String) : Token := { type := t, lexeme := lexeme }

/-- `Lexer::nextToken` (lexer.cpp:160-291).  `lastType` is the type of the
last emitted token (`lastToken_`, initially NEWLINE); the self-recursive
skips (redundant newlines, comments) consume fuel, which never runs out
when `fuel > input.length`. -/
def nextToken (fuel : ℕ) (input : List Char) (lastType : TokenType) :
    Except String (Token × List Char) :=
  match fuel with
  | 0 => .error "lexer fuel exhausted"
  | fuel + 1 =>
    let input := skipWhitespace input
    match input with
    | [] => .ok (mkTok .EOF_TOKEN "", [])
    | c :: rest =>
      if c = '\n' then
        if lastType ≠ .NEWLINE ∧ lastType ≠ .SEMICOLON ∧ lastType ≠ .COMMA then
          .ok (mkTok .NEWLINE "\\n", rest)
        else nextToken fuel rest lastType
      else if c = '%' then
        if rest.headD '\x00' = '{' then
          nextToken fuel (skipBlockComment 1 (rest.drop 1)) lastType
        else
          let rest2 := skipLineComment rest
          if lastType ≠ .NEWLINE ∧ lastType ≠ .SEMICOLON then
            .ok (mkTok .NEWLINE "\\n", rest2)
          else nextToken fuel rest2 lastType
      else if c.isDigit ∨ (c = '.' ∧ (rest.headD '\x00').isDigit) then
        .ok (scanNumber (c :: rest))
      else if c = '"' then scanString '"' (c :: rest)
      else if c = '\'' then
        if isTransposeContext lastType then .ok (mkTok .TRANSPOSE "'", rest)
        else scanString '\'' (c :: rest)
      else if c.isAlpha ∨ c = '_' then .ok (scanIdentifierOrKeyword (c :: rest))
      else if c = '+' then .ok (mkTok .PLUS "+", rest)
      else if c = '-' then .ok (mkTok .MINUS "-", rest)
      else if c = '*' then .ok (mkTok .STAR "*", rest)
      else if c = '/' then .ok (mkTok .SLASH "/", rest)
      else if c = '\\' then .ok (mkTok .BACKSLASH "\\", rest)
      else if c = '^' then .ok (mkTok .CARET "^", rest)
      else if c = '.' then
        if rest.headD '\x00' = '*' then .ok (mkTok .DOT_STAR ".*", rest.drop 1)
        else if rest.headD '\x00' = '/' then .ok (mkTok .DOT_SLASH "./", rest.drop 1)
        else if rest.headD '\x00' = '\\' then .ok (mkTok .DOT_BACKSLASH ".\\", rest.drop 1)
        else if rest.headD '\x00' = '^' then .ok (mkTok .DOT_CARET ".^", rest.drop 1)
        else if rest.headD '\x00' = '\'' then .ok (mkTok .DOT_TRANSPOSE ".'", rest.drop 1)
        else .ok (mkTok .DOT ".", rest)
      else if c = '=' then
        if rest.headD '\x00' = '=' then .ok (mkTok .EQ "==", rest.drop 1)
        else .ok (mkTok .ASSIGN "=", rest)
      else if c = '<' then
        if rest.headD '\x00' = '=' then .ok (mkTok .LE "<=", rest.drop 1)
        else .ok (mkTok .LT "<", rest)
      else if c = '>' then
        if rest.headD '\x00' = '=' then .ok (mkTok .GE ">=", rest.drop 1)
        else .ok (mkTok .GT ">", rest)
      else if c = '~' then
        if rest.headD '\x00' = '=' then .ok (mkTok .NE "~=", rest.drop 1)
        else .ok (mkTok .NOT "~", rest)
      else if c = '&' then
        if rest.headD '\x00' = '&' then .ok (mkTok .SHORT_AND "&&", rest.drop 1)
        else .ok (mkTok .AND "&", rest)
      else if c = '|' then
        if rest.headD '\x00' = '|' then .ok (mkTok .SHORT_OR "||", rest.drop 1)
        else .ok (mkTok .OR "|", rest)
      else if c = '(' then .ok (mkTok .LPAREN "(", rest)
      else if c = ')' then .ok (mkTok .RPAREN ")", rest)
      else if c = '[' then .ok (mkTok .LBRACKET "[", rest)
      else if c = ']' then .ok (mkTok .RBRACKET "]", rest)
      else if c = '{' then .ok (mkTok .LBRACE "\x7b", rest)
      else if c = '}' then .ok (mkTok .RBRACE "\x7d", rest)
      else if c = ',' then .ok (mkTok .COMMA ",", rest)
      else if c = ';' then .ok (mkTok .SEMICOLON ";", rest)
      else if c = ':' then .ok (mkTok .COLON ":", rest)
      else if c = '@' then .ok (mkTok .AT "@", rest)
      else .error ("Unexpected character '" ++ String.mk [c] ++ "'")

/-- The loop of `Lexer::tokenize` (lexer.cpp:44-52): collect tokens until
EOF; `lastType` threads `lastToken_` from one emitted token to the next. -/
def tokenizeLoop (fuel : ℕ) (input : List Char) (lastType : TokenType) :
    Except String (List Token) :=
  match fuel with
  | 0 => .error "lexer fuel exhausted"
  | fuel + 1 =>
    match nextToken (input.length + 1) input lastType with
    | .error e => .error e
    | .ok (tok, rest) =>
      if tok.type = .EOF_TOKEN then .ok [tok]
      else
        match tokenizeLoop fuel rest tok.type with
        | .ok ts => .ok (tok :: ts)
        | .error e => .error e

/-- `Lexer::tokenize`: `lastToken_` starts as NEWLINE ("as if at beginning
of line", lexer.cpp:41). -/
def tokenize (source : String) : Except String (List Token) :=
  tokenizeLoop (source.length + 1) source.toList .NEWLINE

end Lexer

/-! ## AST (src/core/ast.h)

Source positions (`line`/`col`, diagnostics only) are not carried. -/

mutual

inductive Expr where
  | num (value : ℚ) (imagValue : ℚ) (isComplex : Bool)
  | strLit (value : String)
  | boolLit (value : Bool)
  | ident (name : String)
  | unary (op : TokenType) (operand : Expr) (postfixFlag : Bool)
  | binary (op : TokenType) (left : Expr) (right : Expr)
  | matrixLit (rows : List (List Expr))
  | cellLit (rows : List (List Expr))
  | call (callee : Expr) (arguments : List Expr)
  | cellIndex (object : Expr) (indices : List Expr)
  | dot (object : Expr) (field : String)
  | colonE (start : Option Expr) (step : Option Expr) (stop : Option Expr)
  | endE
  | anonFunc (params : List String) (body : Expr)
  | funcHandleRef (name : String)
  | command (cmd : String) (args : List String)

inductive Stmt where
  | exprStmt (expression : Expr) (printResult : Bool)
  | assign (target : Expr) (value : Expr) (printResult : Bool)
  | multiAssign (targets : List String) (value : Expr) (printResult : Bool)
  | ifStmt (branches : List (Option Expr × List Stmt))
  | forStmt (loopVar : String) (range : Expr) (body : List Stmt)
  | whileStmt (condition : Expr) (body : List Stmt)
  | switchStmt (expression : Expr) (cases : List (Option Expr × List Stmt))
  | tryCatch (tryBody : List Stmt) (catchVar : String) (catchBody : List Stmt)
  | returnStmt
  | breakStmt
  | continueStmt
  | globalStmt (names : List String)
  | persistentStmt (names : List String)
  | funcDef (f : FunctionDef)

/-- `FunctionDef` (ast.h:250-255). -/
inductive FunctionDef where
  | mk (name : String) (params : List String) (returns : List String)
      (body : List Stmt)

end

def FunctionDef.name : FunctionDef → String
  | .mk n _ _ _ => n

def FunctionDef.params : FunctionDef → List String
  | .mk _ p _ _ => p

def FunctionDef.returns : FunctionDef → List String
  | .mk _ _ r _ => r

def FunctionDef.body : FunctionDef → List Stmt
  | .mk _ _ _ b => b

/-! ## Value (src/core/value.h, src/core/value.cpp)

The runtime variant.  A C++ `ValuePtr` that may be null (cell-array slots)
is `Option Value`.  `FunctionHandle.impl` holds either a registered builtin
(`std::function`, modelled by the name it was registered under and resolved
through the interpreter context) or a user `FunctionDef`. -/

inductive FHImpl where
  | builtinFn (name : String)
  | userFn (f : FunctionDef)

inductive Value where
  | matrix (m : Matrix)
  | logical (m : Matrix)
  | str (s : String)
  | cell (rows cols : ℕ) (data : List (Option Value))
  | structV (fields : List (String × Value))
  | funcHandle (name : String) (impl : FHImpl)
  | empty

namespace Value

def isMatrix : Value → Bool | .matrix _ => true | _ => false
def isLogical : Value → Bool | .logical _ => true | _ => false
def isString : Value → Bool | .str _ => true | _ => false
def isCellArray : Value → Bool | .cell _ _ _ => true | _ => false
def isStruct : Value → Bool | .structV _ => true | _ => false
def isFuncHandle : Value → Bool | .funcHandle _ _ => true | _ => false
def isEmptyV : Value → Bool | .empty => true | _ => false
def isNumeric (v : Value) : Bool := v.isMatrix || v.isLogical

/-- The `matrix_` member: the stored matrix for MATRIX/LOGICAL values and
the default-constructed 0×0 matrix for every other variant. -/
def matrixField : Value → Matrix
  | .matrix m => m
  | .logical m => m
  | _ => ⟨0, 0, []⟩

/-- The checked accessor `Value::matrix()`. -/
def matrixAcc (v : Value) : Except String Matrix :=
  if v.isMatrix ∨ v.isLogical then .ok v.matrixField
  else .error "Value is not a matrix"

/-- `Value::isScalar()`. -/
def isScalarV (v : Value) : Bool := v.isNumeric && v.matrixField.isScalar

/-- `Value::toBool()` (value.cpp:458-473): numeric/logical values are true
when non-empty with every element nonzero; strings when non-empty; every
other variant throws. -/
def toBool : Value → Except String Bool
  | .matrix m => .ok (m.data.all (· ≠ 0) && !m.data.isEmpty)
  | .logical m => .ok (m.data.all (· ≠ 0) && !m.data.isEmpty)
  | .str s => .ok (!s.isEmpty)
  | _ => .error "Cannot convert value to logical"

/-- `Value::toMatrix()` (value.cpp:475-490). -/
def toMatrix : Value → Except String Matrix
  | .matrix m => .ok m
  | .logical m => .ok m
  | .str s => .ok ⟨1, s.length, s.toList.map fun c => (c.toNat : ℚ)⟩
  | _ => .error "Cannot convert to numeric matrix"

/-- The `string_` member (empty for non-string variants). -/
def stringField : Value → String
  | .str s => s
  | _ => ""

/-- `Value::scalarDouble()` (value.h:289-296): a 1-character string is its
character code; otherwise the `matrix_` member's `scalarValue()` (which is
the default 0×0 matrix, hence "Not a scalar", for non-numeric variants). -/
def scalarDouble (v : Value) : Except String ℚ :=
  match v with
  | .str s => if s.length = 1 then .ok ((s.toList.getD 0 ' ').toNat : ℚ)
      else .error "Cannot convert string to scalar"
  | _ => v.matrixField.scalarValue

def makeScalar (d : ℚ) : Value := .matrix (Matrix.scalar d)
def makeBool (b : Bool) : Value := .logical (Matrix.scalar (if b then 1 else 0))

end Value

/-- Replace-or-append on an association list: `map[k] = v`. -/
def assocSet {α : Type} (l : List (String × α)) (k : String) (v : α) :
    List (String × α) :=
  match l with
  | [] => [(k, v)]
  | (k', v') :: rest => if k' = k then (k, v) :: rest else (k', v') :: assocSet rest k v

/-! ## Environment (src/core/environment.h)

A scope: its own variable map, the set of names declared `global` in it,
and a parent link used only to reach the single shared global (root)
scope.  The C++ scopes share the root through `shared_ptr`; here the root
is embedded structurally, and `replaceRoot` transplants an updated root
back into a saved chain, which models the pointer sharing exactly because
every live chain in the interpreter shares the one root. -/

/-- A scope with a null parent pointer is `rootE`; one with a parent is
`child`. -/
inductive Env where
  | rootE (vars : List (String × Value)) (globals : List String)
  | child (vars : List (String × Value)) (globals : List String) (parent : Env)

namespace Env

def vars : Env → List (String × Value)
  | .rootE v _ => v
  | .child v _ _ => v

def globals : Env → List String
  | .rootE _ g => g
  | .child _ g _ => g

def parent : Env → Option Env
  | .rootE _ _ => none
  | .child _ _ p => some p

/-- `Environment::getGlobalEnv()`: walk to the root. -/
def root : Env → Env
  | .rootE v g => .rootE v g
  | .child _ _ p => p.root

theorem root_isRoot : (e : Env) → (e.root).parent = none
  | .rootE _ _ => rfl
  | .child _ _ p => root_isRoot p

/-- `Environment::get` (environment.h:30-42): own map first, then the
global-declaration redirection to the root scope; the parent's ordinary
bindings are NOT consulted.  (The source recurses with
`getGlobalEnv()->get(name)`; on the root that call is exactly an own-map
lookup — its global redirection needs a parent — so the recursion is
unrolled here.) -/
def get (e : Env) (name : String) : Option Value :=
  match e.vars.lookup name with
  | some v => some v
  | none =>
    if name ∈ e.globals ∧ (e.parent).isSome then (e.root).vars.lookup name
    else none

/-- Write into the root scope's own map (`getGlobalEnv()->set` — the root
has no parent, so its own `set` writes `variables_` directly). -/
def rootSet (e : Env) (name : String) (v : Value) : Env :=
  match e with
  | .rootE vs gs => .rootE (assocSet vs name v) gs
  | .child vs gs p => .child vs gs (p.rootSet name v)

/-- `Environment::set` (environment.h:45-52). -/
def set (e : Env) (name : String) (v : Value) : Env :=
  if name ∈ e.globals ∧ (e.parent).isSome then e.rootSet name v
  else
    match e with
    | .rootE vs gs => .rootE (assocSet vs name v) gs
    | .child vs gs p => .child (assocSet vs name v) gs p

/-- `Environment::has` (environment.h:55-61), with the root-recursion
unrolled like `get`. -/
def has (e : Env) (name : String) : Bool :=
  if (e.vars.lookup name).isSome then true
  else
    if name ∈ e.globals ∧ (e.parent).isSome then ((e.root).vars.lookup name).isSome
    else false

/-- `Environment::declareGlobal`. -/
def declareGlobal (e : Env) (name : String) : Env :=
  match e with
  | .rootE vs gs => .rootE vs (name :: gs)
  | .child vs gs p => .child vs (name :: gs) p

/-- Transplant `newRoot` as the root of `e`'s chain (pointer-sharing model,
see the section comment). -/
def replaceRoot (e : Env) (newRoot : Env) : Env :=
  match e with
  | .rootE _ _ => newRoot
  | .child vs gs p => .child vs gs (p.replaceRoot newRoot)

end Env

/-! ## Interpreter scaffolding (src/core/interpreter.h, src/core/interpreter.cpp)

C++ exceptions become explicit outcomes: `Err.rt` is `RuntimeError`,
`Err.internal` is any other `std::exception` (the distinction `execTryCatch`
observes), and `Signal` carries the control-flow structs
`BreakSignal`/`ContinueSignal`/`ReturnSignal`, which derive from no
exception base class and are therefore distinct from both error kinds. -/

inductive Err where
  | rt (msg : String)
  | internal (msg : String)
  deriving Repr, DecidableEq

/-- `e.what()` as observed by the catch clauses. -/
def Err.message : Err → String
  | .rt m => m
  | .internal m => m

/-- The identifier tag `execTryCatch` stores for each catch clause. -/
def Err.identifier : Err → String
  | .rt _ => "MatFree:runtime"
  | .internal _ => "MatFree:internal"

inductive Signal where
  | brk | cont | ret
  deriving Repr, DecidableEq

/-- Mutable interpreter state: the current environment (`currentEnv_`, whose
root is `globalEnv_`) and the user-function registry (`userFunctions_`).
The output sink and search path are external collaborators and are not
modelled; display calls are no-ops here. -/
structure IState where
  env : Env
  funcs : List (String × FunctionDef)

/-- Outcome of executing a piece of code: normal completion, a C++
exception in flight (state mutations made before the throw persist), a
control-flow signal in flight, or fuel exhaustion (a model artifact). -/
inductive ExecR (α : Type) where
  | ok (st : IState) (a : α)
  | thrown (st : IState) (e : Err)
  | signal (st : IState) (s : Signal)
  | fuelOut

abbrev M (α : Type) : Type := IState → ExecR α

/-- Sequencing in `M`: exceptions, signals and fuel exhaustion short-circuit
(the C++ exception propagation). -/
def M.bind {α β : Type} (m : M α) (f : α → M β) : M β := fun st =>
  match m st with
  | .ok st' a => f a st'
  | .thrown st' e => .thrown st' e
  | .signal st' s => .signal st' s
  | .fuelOut => .fuelOut

instance : Monad M where
  pure a := fun st => .ok st a
  bind := M.bind

def throwRt {α : Type} (msg : String) : M α := fun st => .thrown st (.rt msg)

def raiseSignal {α : Type} (s : Signal) : M α := fun st => .signal st s

def outOfFuel {α : Type} : M α := fun _ => .fuelOut

def getSt : M IState := fun st => .ok st st

def modifySt (f : IState → IState) : M Unit := fun st => .ok (f st) ()

/-- A `RuntimeError` thrown by a Matrix/Value helper propagates into the
interpreter unchanged. -/
def liftExc {α : Type} : Except String α → M α
  | .ok a => pure a
  | .error msg => throwRt msg

def envSetM (name : String) (v : Value) : M Unit :=
  modifySt fun st => { st with env := st.env.set name v }

/-- The builtin registry `builtinFunctions_`: external callables registered
by the host; modelled as pure functions over values (registration happens
before execution and is not mutated during a run). -/
structure Ctx where
  builtins : List (String × (List Value → Except String Value))

/-- `Interpreter::isKnownFunction` — builtin or user-defined. -/
def isKnownFunction (ctx : Ctx) (st : IState) (name : String) : Bool :=
  (ctx.builtins.lookup name).isSome || (st.funcs.lookup name).isSome

/-! ## Colon-range generation (interpreter.cpp:1000-1016) -/

/-- The ascending accumulation loop of `Interpreter::generateRange`:
`for (double v = start; v <= stop + step*1e-10; v += step)`.  The loop
condition and step are the source's; the extra `fuel` argument only bounds
the iteration count so the recursion is structural — `generateRange` below
passes `(⌊(bound - start) / step⌋ + 1).toNat`, which
`rangeLoopUp_closed_form` proves is never reached while the loop condition
still holds, so the bound never alters the produced list. -/
def rangeLoopUp (step bound : ℚ) : ℕ → ℚ → List ℚ
  | 0, _ => []
  | fuel + 1, v => if v ≤ bound then v :: rangeLoopUp step bound fuel (v + step) else []

/-- The descending loop: `for (double v = start; v >= stop + step*1e-10; v += step)`
for negative `step`, with the same exact iteration bound. -/
def rangeLoopDown (step bound : ℚ) : ℕ → ℚ → List ℚ
  | 0, _ => []
  | fuel + 1, v => if v ≥ bound then v :: rangeLoopDown step bound fuel (v + step) else []

/-- `Interpreter::generateRange` (interpreter.cpp:1000-1016): zero step is
an error; otherwise accumulate from `start` toward `stop` inclusive with
tolerance `step * 1e-10`, producing a 1×N row vector. -/
def generateRange (start step stop : ℚ) : Except String Matrix :=
  if step = 0 then .error "Step size cannot be zero"
  else if 0 < step then
    let bound := stop + step * (1 / 10 ^ 10)
    let vals := rangeLoopUp step bound (⌊(bound - start) / step⌋ + 1).toNat start
    .ok ⟨1, vals.length, vals⟩
  else
    let bound := stop + step * (1 / 10 ^ 10)
    let vals := rangeLoopDown step bound (⌊(start - bound) / (-step)⌋ + 1).toNat start
    .ok ⟨1, vals.length, vals⟩

/-! ## Further Matrix helpers used by the evaluator -/

namespace Matrix

/-- `Matrix::getCol` (value.cpp:328-332). -/
def getCol (m : Matrix) (col : ℕ) : Matrix :=
  ⟨m.rows, 1, (List.range m.rows).map fun i => m.get i col⟩

/-- Write by linear index (`mat(idx) = v`); an out-of-range write (UB in
the source) is a no-op here. -/
def setLin (m : Matrix) (i : ℕ) (v : ℚ) : Matrix := ⟨m.rows, m.cols, m.data.set i v⟩

/-- Write by (row, col). -/
def setAt (m : Matrix) (r c : ℕ) (v : ℚ) : Matrix :=
  ⟨m.rows, m.cols, m.data.set (r * m.cols + c) v⟩

/-- The linear-growth step of `assignIndexed` (interpreter.cpp:868-872):
a fresh zero-filled 1×(idx+1) row with the old data copied in linearly. -/
def growLin (m : Matrix) (idx : ℕ) : Matrix :=
  ⟨1, idx + 1, (List.range (idx + 1)).map fun i => if i < m.numel then m.getLin i else 0⟩

/-- The 2-D growth step of `assignIndexed` (interpreter.cpp:878-886). -/
def grow2 (m : Matrix) (newRows newCols : ℕ) : Matrix :=
  ⟨newRows, newCols, (List.range (newRows * newCols)).map fun idx =>
    let i := idx / newCols
    let j := idx % newCols
    if i < m.rows ∧ j < m.cols then m.get i j else 0⟩

end Matrix

/-! ## Pure pieces of expression evaluation (src/core/interpreter.cpp) -/

/-- `static_cast<size_t>(d)` for the nonnegative doubles the interpreter
casts (truncation toward zero); a negative operand is UB in the source and
is tracked as a negative integer here so that the `>= numel` wraparound
checks can be modelled faithfully. -/
def castIdx (q : ℚ) : ℤ := ⌊q⌋

/-- The AND branch of `Interpreter::evalBinary` (interpreter.cpp:434-446):
a (max rows)×(max cols) result filled through `getWithBroadcast`, with NO
`broadcastCheck` shape validation. -/
def logicalAnd (lm rm : Matrix) : Matrix :=
  let r := max lm.rows rm.rows
  let c := max lm.cols rm.cols
  ⟨r, c, (List.range (r * c)).map fun idx =>
    if lm.getWithBroadcast (idx / c) (idx % c) ≠ 0 ∧
        rm.getWithBroadcast (idx / c) (idx % c) ≠ 0 then (1 : ℚ) else 0⟩

/-- The OR branch of `Interpreter::evalBinary` (interpreter.cpp:447-457). -/
def logicalOr (lm rm : Matrix) : Matrix :=
  let r := max lm.rows rm.rows
  let c := max lm.cols rm.cols
  ⟨r, c, (List.range (r * c)).map fun idx =>
    if lm.getWithBroadcast (idx / c) (idx % c) ≠ 0 ∨
        rm.getWithBroadcast (idx / c) (idx % c) ≠ 0 then (1 : ℚ) else 0⟩

/-- `Interpreter::evalUnary` (interpreter.cpp:349-387) after the operand is
evaluated. -/
def evalUnaryOp (op : TokenType) (operand : Value) : Except String Value :=
  match op with
  | .MINUS =>
    if operand.isNumeric then .ok (.matrix operand.matrixField.neg)
    else .error "Unary minus requires numeric operand"
  | .PLUS => .ok operand
  | .NOT =>
    if operand.isNumeric then
      let m := operand.matrixField
      .ok (.matrix ⟨m.rows, m.cols, m.data.map fun x => if x = 0 then (1 : ℚ) else 0⟩)
    else .error "Logical NOT requires numeric operand"
  | .TRANSPOSE =>
    if operand.isNumeric then .ok (.matrix operand.matrixField.transpose)
    else .error "Transpose requires numeric operand"
  | .DOT_TRANSPOSE =>
    if operand.isNumeric then .ok (.matrix operand.matrixField.transpose)
    else .error "Transpose requires numeric operand"
  | _ => .error "Unknown unary operator"

/-- `Interpreter::evalBinary` (interpreter.cpp:389-474) after both operands
are evaluated: the numeric switch (the AND/OR cases skip `broadcastCheck`),
then string EQ/NE, then the unsupported-types error. -/
def evalBinaryOp (op : TokenType) (left right : Value) : Except String Value :=
  if left.isNumeric && right.isNumeric then
    let lm := left.matrixField
    let rm := right.matrixField
    match op with
    | .PLUS => Value.matrix <$> Matrix.matAdd lm rm
    | .MINUS => Value.matrix <$> Matrix.matSub lm rm
    | .STAR => Value.matrix <$> Matrix.matMul lm rm
    | .SLASH =>
      if rm.isScalar then .ok (.matrix (lm.scalarDivBy (rm.data.getD 0 0)))
      else Value.matrix <$> Matrix.elementDiv lm rm
    | .BACKSLASH =>
      if lm.isScalar then .ok (.matrix (rm.scalarDivBy (lm.data.getD 0 0)))
      else .error "Matrix left division not yet fully implemented"
    | .CARET =>
      if rm.isScalar then .ok (.matrix (lm.powerScalar (rm.data.getD 0 0)))
      else .error "Matrix power requires scalar exponent"
    | .DOT_STAR => Value.matrix <$> Matrix.elementMul lm rm
    | .DOT_SLASH => Value.matrix <$> Matrix.elementDiv lm rm
    | .DOT_CARET => Value.matrix <$> Matrix.elementPow lm rm
    | .EQ => Value.matrix <$> Matrix.matEq lm rm
    | .NE => Value.matrix <$> Matrix.matNe lm rm
    | .LT => Value.matrix <$> Matrix.matLt lm rm
    | .GT => Value.matrix <$> Matrix.matGt lm rm
    | .LE => Value.matrix <$> Matrix.matLe lm rm
    | .GE => Value.matrix <$> Matrix.matGe lm rm
    | .AND => .ok (.matrix (logicalAnd lm rm))
    | .SHORT_AND => .ok (.matrix (logicalAnd lm rm))
    | .OR => .ok (.matrix (logicalOr lm rm))
    | .SHORT_OR => .ok (.matrix (logicalOr lm rm))
    | _ => .error "Unknown binary operator"
  else if left.isString && right.isString then
    if op = .EQ then .ok (Value.makeBool (left.stringField == right.stringField))
    else if op = .NE then .ok (Value.makeBool (left.stringField != right.stringField))
    else .error "Unsupported operand types for binary operation"
  else .error "Unsupported operand types for binary operation"

/-- `scalarDouble` of a value already known to be a numeric scalar
(`data_[0]`, no failure possible). -/
def scalarDirect (v : Value) : ℚ := v.matrixField.data.getD 0 0

/-- The array-indexing portion of `Interpreter::evalCall`
(interpreter.cpp:549-622), entered when the callee names a bound variable
that is not shadowed by a known function.  `none` means the C++ control
flow falls out of the block and dispatches a genuine function call.
Note the 2-argument path performs NO bounds check: the source reads
`mat(rowIdx[i], colIdx[j])` straight from the backing store (UB when the
flat offset `row * cols + col` passes the end; wrong element otherwise). -/
def indexingRead (var : Value) (args : List Value) : Option (Except String Value) :=
  if var.isNumeric then
    let mat := var.matrixField
    match args with
    | [idx] =>
      if idx.isEmptyV ∨ (idx.isMatrix ∧ idx.matrixField.isEmpty) then
        some (.ok (.matrix ⟨mat.numel, 1, mat.data⟩))
      else if idx.isNumeric then
        let idxMat := idx.matrixField
        if idxMat.isScalar then
          let i : ℤ := castIdx (idxMat.data.getD 0 0) - 1
          if i < 0 ∨ (mat.numel : ℤ) ≤ i then
            some (.error "Index exceeds array dimensions")
          else some (.ok (Value.makeScalar (mat.getLin i.toNat)))
        else
          some (do
            let vals ← (List.range idxMat.numel).mapM fun k =>
              let i : ℤ := castIdx (idxMat.getLin k) - 1
              if i < 0 ∨ (mat.numel : ℤ) ≤ i then
                Except.error "Index exceeds array dimensions"
              else Except.ok (mat.getLin i.toNat)
            Except.ok (Value.matrix ⟨idxMat.rows, idxMat.cols, vals⟩))
      else none
    | [arg0, arg1] =>
      let rowIdx : List ℕ :=
        if arg0.isEmptyV then List.range mat.rows
        else if arg0.isNumeric then
          (List.range arg0.matrixField.numel).map fun k =>
            (castIdx (arg0.matrixField.getLin k) - 1).toNat
        else []
      let colIdx : List ℕ :=
        if arg1.isEmptyV then List.range mat.cols
        else if arg1.isNumeric then
          (List.range arg1.matrixField.numel).map fun k =>
            (castIdx (arg1.matrixField.getLin k) - 1).toNat
        else []
      if rowIdx.length = 1 ∧ colIdx.length = 1 then
        some (.ok (Value.makeScalar (mat.get (rowIdx.headD 0) (colIdx.headD 0))))
      else
        some (.ok (.matrix ⟨rowIdx.length, colIdx.length,
          rowIdx.flatMap fun i => colIdx.map fun j => mat.get i j⟩))
    | _ => none
  else if var.isCellArray then
    some (.error "Cell array () indexing not fully supported yet, use \x7b\x7d instead")
  else if var.isStruct then
    some (.error "Struct array indexing not yet supported")
  else none

/-- `Interpreter::evalCellIndex` (interpreter.cpp:641-667) after the object
and indices are evaluated (the object is already known to be a cell).  The
(r, c) form reads `cell.at(r, c)` unchecked. -/
def cellIndexRead (cols : ℕ) (data : List (Option Value)) (indices : List Value) :
    Except String Value :=
  if indices.length = 1 ∧ (indices.headD .empty).isScalarV then
    let i : ℤ := castIdx (scalarDirect (indices.headD .empty)) - 1
    if i < 0 ∨ (data.length : ℤ) ≤ i then .error "Index exceeds cell array dimensions"
    else .ok ((data.getD i.toNat none).getD Value.empty)
  else if indices.length = 2 ∧ (indices.headD .empty).isScalarV ∧
      ((indices.drop 1).headD .empty).isScalarV then
    let r := (castIdx (scalarDirect (indices.headD .empty)) - 1).toNat
    let c := (castIdx (scalarDirect ((indices.drop 1).headD .empty)) - 1).toNat
    .ok ((data.getD (r * cols + c) none).getD Value.empty)
  else .error "Cell array indexing error"

/-- The case-match test of `Interpreter::execSwitch` (interpreter.cpp:235-241):
scalar-vs-scalar numeric equality, string-vs-string text equality,
mismatched kinds never match. -/
def switchMatches (val caseVal : Value) : Bool :=
  if val.isScalarV && caseVal.isScalarV then scalarDirect val == scalarDirect caseVal
  else if val.isString && caseVal.isString then val.stringField == caseVal.stringField
  else false

/-! ## Non-recursive statement helpers -/

/-- Parameter binding in `callUserFunction` (interpreter.cpp:778-780):
as many parameters as arguments are supplied. -/
def bindParams : List String → List Value → M Unit
  | p :: ps, a :: rest => do
    envSetM p a
    bindParams ps rest
  | _, _ => pure ()

/-- `if (!currentEnv_->has(name)) set(name, empty)` over a name list — the
return-variable pre-seeding of `callUserFunction` (interpreter.cpp:787-791)
and the whole of `execPersistent` (interpreter.cpp:283-290). -/
def seedAbsent : List String → M Unit
  | [] => pure ()
  | n :: ns => do
    let st ← getSt
    if st.env.has n then pure () else envSetM n Value.empty
    seedAbsent ns

/-- `Interpreter::execGlobal` (interpreter.cpp:277-281). -/
def declareGlobals (names : List String) : M Unit :=
  modifySt fun st => { st with env := names.foldl Env.declareGlobal st.env }

/-- The target loop of `Interpreter::execMultiAssign` (interpreter.cpp:149-156):
skip `~`, bind the first target to the value, every later one to empty. -/
def multiAssignTargets : List String → ℕ → Value → M Unit
  | [], _, _ => pure ()
  | t :: ts, i, val => do
    if t = "~" then pure ()
    else if i = 0 then envSetM t val
    else envSetM t Value.empty
    multiAssignTargets ts (i + 1) val

/-- The `catch (ReturnSignal&)` wrapper in `callUserFunction`
(interpreter.cpp:794-800): a return signal ends the body normally;
everything else (errors, break/continue) passes through. -/
def catchReturn (m : M Unit) : M Unit := fun st =>
  match m st with
  | .signal st' .ret => .ok st' ()
  | other => other

/-- `Interpreter::assignDot` (interpreter.cpp:894-913): needs no expression
evaluation beyond a variable lookup. -/
def assignDotF (obj : Expr) (field : String) (value : Value) : M Unit :=
  match obj with
  | .ident name => do
    let st ← getSt
    match st.env.get name with
    | none => envSetM name (.structV [(field, value)])
    | some o =>
      if o.isEmptyV then envSetM name (.structV [(field, value)])
      else
        match o with
        | .structV fields => envSetM name (.structV (assocSet fields field value))
        | _ => throwRt "Cannot set field on non-struct value"
  | _ => throwRt "Dot assignment requires an identifier base"

/-- `evalMatrix` row assembly (interpreter.cpp:498-511): single-element rows
are taken as-is, longer rows are horzcat'ed; a single row stands alone,
multiple rows are vertcat'ed. -/
def assembleMatrixLit (rows : List (List Matrix)) : Except String Matrix := do
  let rowMats ← rows.mapM fun row =>
    if row.length = 1 then Except.ok (row.headD ⟨0, 0, []⟩) else Matrix.horzcat row
  if rowMats.length = 1 then pure (rowMats.headD ⟨0, 0, []⟩) else Matrix.vertcat rowMats

/-! ## The tree-walking evaluator (src/core/interpreter.cpp)

Every evaluator consumes one unit of fuel per entry, so the recursion is a
single structural descent on the fuel. -/

set_option maxHeartbeats 2000000

/-- The mutually recursive evaluators of the interpreter, gathered in one
record so that the recursion is a single structural descent on fuel
(`interpStep`): the record at `fuel + 1` invokes the record at `fuel`
(named `prev` below) exactly where the C++ functions recurse. -/
structure InterpFns where
  evalExpr : Expr → M Value
  evalIdentifierF : String → M Value
  evalArgs : List Expr → M (List Value)
  evalMatrixRow : List Expr → M (List Matrix)
  evalMatrixRows : List (List Expr) → M (List (List Matrix))
  evalCellRow : ℕ → List Expr → List (Option Value) → M (List (Option Value))
  evalCellRows : ℕ → ℕ → List (List Expr) → List (Option Value) → M (List (Option Value))
  evalCallF : Expr → List Expr → M Value
  evalColonF : Option Expr → Option Expr → Option Expr → M Value
  callFunction : String → List Value → M Value
  callUserFunction : FunctionDef → List Value → ℕ → M Value
  callFuncHandleF : FHImpl → List Value → M Value
  execStmt : Stmt → M Unit
  execAssignF : Expr → Expr → Bool → M Unit
  assignIndexedF : Expr → List Expr → Value → M Unit
  assignCellIndexF : Expr → List Expr → Value → M Unit
  assignCellFresh : String → List Expr → Value → M Unit
  execIfBranches : List (Option Expr × List Stmt) → M Unit
  execSwitchCases : Value → List (Option Expr × List Stmt) → M Unit
  execForCols : String → Matrix → List Stmt → List ℕ → M Unit
  execWhileLoop : Expr → List Stmt → M Unit
  execStmts : List Stmt → M Unit

/-- Everything runs out of fuel at level 0. -/
def interpZero : InterpFns where
  evalExpr _ := outOfFuel
  evalIdentifierF _ := outOfFuel
  evalArgs _ := outOfFuel
  evalMatrixRow _ := outOfFuel
  evalMatrixRows _ := outOfFuel
  evalCellRow _ _ _ := outOfFuel
  evalCellRows _ _ _ _ := outOfFuel
  evalCallF _ _ := outOfFuel
  evalColonF _ _ _ := outOfFuel
  callFunction _ _ := outOfFuel
  callUserFunction _ _ _ := outOfFuel
  callFuncHandleF _ _ := outOfFuel
  execStmt _ := outOfFuel
  execAssignF _ _ _ := outOfFuel
  assignIndexedF _ _ _ := outOfFuel
  assignCellIndexF _ _ _ := outOfFuel
  assignCellFresh _ _ _ := outOfFuel
  execIfBranches _ := outOfFuel
  execSwitchCases _ _ := outOfFuel
  execForCols _ _ _ _ := outOfFuel
  execWhileLoop _ _ := outOfFuel
  execStmts _ := outOfFuel

/-- One step of the interpreter.  Each field transcribes the corresponding
function of `src/core/interpreter.cpp`; source line references are given
on each field. -/
def interpStep (ctx : Ctx) : ℕ → InterpFns
  | 0 => interpZero
  | fuel + 1 =>
    let prev := interpStep ctx fuel
    { -- `Interpreter::evalExpr` (interpreter.cpp:296-319) with the
      -- per-node evaluators inlined at their dispatch sites.
      evalExpr := fun e =>
        match e with
        | .num v iv cpx =>
          -- evalNumber: complex literals keep only the imaginary part
          -- (TODO in the source)
          pure (if cpx then Value.makeScalar iv else Value.makeScalar v)
        | .strLit s => pure (.str s)
        | .boolLit b => pure (Value.makeBool b)
        | .ident name => prev.evalIdentifierF name
        | .unary op operand _ => do
          let v ← prev.evalExpr operand
          liftExc (evalUnaryOp op v)
        | .binary op l r => do
          let lv ← prev.evalExpr l
          let rv ← prev.evalExpr r
          liftExc (evalBinaryOp op lv rv)
        | .matrixLit rows =>
          -- evalMatrix (interpreter.cpp:476-512)
          if rows.isEmpty then pure (.matrix ⟨0, 0, []⟩)
          else do
            let mrows ← prev.evalMatrixRows rows
            liftExc (Value.matrix <$> assembleMatrixLit mrows)
        | .cellLit rows =>
          -- evalCellArray (interpreter.cpp:514-530)
          if rows.isEmpty then pure (.cell 0 0 [])
          else do
            let nrows := rows.length
            let ncols := (rows.headD []).length
            let grid ← prev.evalCellRows ncols 0 rows
              (List.replicate (nrows * ncols) none)
            pure (.cell nrows ncols grid)
        | .call callee arguments => prev.evalCallF callee arguments
        | .cellIndex obj idxs => do
          let o ← prev.evalExpr obj
          match o with
          | .cell _ cols data => do
            let indices ← prev.evalArgs idxs
            liftExc (cellIndexRead cols data indices)
          | _ => throwRt "Cell indexing requires a cell array"
        | .dot obj field => do
          let o ← prev.evalExpr obj
          match o with
          | .structV fields =>
            match fields.lookup field with
            | some v => pure v
            | none => throwRt ("Reference to non-existent field '" ++ field ++ "'")
          | _ => throwRt "Dot access requires a struct"
        | .colonE startE stepE stopE => prev.evalColonF startE stepE stopE
        | .endE => pure (Value.makeScalar 0)   -- TODO in source
        | .anonFunc params body =>
          -- evalAnonFunc (interpreter.cpp:704-728): body wrapped as
          -- `ans = body`, sole declared return "ans"; no capture of the
          -- enclosing scope.
          pure (.funcHandle "<anonymous>" (.userFn (.mk "<anonymous>" params
            ["ans"] [.assign (.ident "ans") body false])))
        | .funcHandleRef name => do
          -- evalFuncHandle (interpreter.cpp:730-744)
          let st ← getSt
          if (ctx.builtins.lookup name).isSome then
            pure (.funcHandle name (.builtinFn name))
          else
            match st.funcs.lookup name with
            | some fd => pure (.funcHandle name (.userFn fd))
            | none => throwRt ("Undefined function '" ++ name ++ "'")
        | .command _ _ => throwRt "Command syntax not yet supported"

      -- `Interpreter::evalIdentifier` (interpreter.cpp:337-347).
      evalIdentifierF := fun name => do
        let st ← getSt
        match st.env.get name with
        | some v => pure v
        | none =>
          if isKnownFunction ctx st name then prev.callFunction name []
          else throwRt ("Undefined variable or function '" ++ name ++ "'")

      -- Argument-list evaluation (left to right).
      evalArgs := fun es =>
        match es with
        | [] => pure []
        | e :: rest => do
          let v ← prev.evalExpr e
          let vs ← prev.evalArgs rest
          pure (v :: vs)

      -- Element evaluation of a matrix-literal row (interpreter.cpp:483-495):
      -- numeric elements contribute their matrix, strings their char
      -- codes, anything else is an error.
      evalMatrixRow := fun es =>
        match es with
        | [] => pure []
        | e :: rest => do
          let v ← prev.evalExpr e
          let m ←
            if v.isNumeric then pure v.matrixField
            else if v.isString then liftExc v.toMatrix
            else throwRt "Invalid element in matrix literal"
          let ms ← prev.evalMatrixRow rest
          pure (m :: ms)

      evalMatrixRows := fun rows =>
        match rows with
        | [] => pure []
        | row :: rest => do
          let r ← prev.evalMatrixRow row
          let rs ← prev.evalMatrixRows rest
          pure (r :: rs)

      -- Cell-literal fill loop (interpreter.cpp:523-527): writes element
      -- (i, j) at flat position `i * ncols + j`; a write past the grid
      -- (ragged literal, UB in the source) is a no-op here.
      evalCellRow := fun base es acc =>
        match es with
        | [] => pure acc
        | e :: rest => do
          let v ← prev.evalExpr e
          prev.evalCellRow (base + 1) rest (acc.set base (some v))

      evalCellRows := fun ncols i rows acc =>
        match rows with
        | [] => pure acc
        | row :: rest => do
          let acc' ← prev.evalCellRow (i * ncols) row acc
          prev.evalCellRows ncols (i + 1) rest acc'

      -- `Interpreter::evalCall` (interpreter.cpp:532-639): arguments
      -- first; a bound function-handle variable is called; a bound data
      -- variable not shadowed by a known function is indexed
      -- (`indexingRead`); everything else dispatches as a function call.
      evalCallF := fun callee argsE =>
        match callee with
        | .ident name => do
          let args ← prev.evalArgs argsE
          let st ← getSt
          match st.env.get name with
          | some (.funcHandle _ impl) => prev.callFuncHandleF impl args
          | some var =>
            if ¬ isKnownFunction ctx st name then
              match indexingRead var args with
              | some r => liftExc r
              | none => prev.callFunction name args
            else prev.callFunction name args
          | none => prev.callFunction name args
        | _ => do
          let calleeV ← prev.evalExpr callee
          match calleeV with
          | .funcHandle _ impl => do
            let args ← prev.evalArgs argsE
            prev.callFuncHandleF impl args
          | _ => throwRt "Cannot call non-function value"

      -- `Interpreter::evalColon` (interpreter.cpp:684-702): a bare or
      -- start-less colon is the empty "whole range" marker; a stop-less
      -- one evaluates its start; otherwise start, stop, then the optional
      -- step (default 1) are reduced to scalars and the range generated.
      evalColonF := fun startE stepE stopE =>
        match startE, stopE with
        | none, _ => pure .empty
        | some s, none => prev.evalExpr s
        | some s, some stp => do
          let sv ← prev.evalExpr s
          let start ← liftExc sv.scalarDouble
          let ev ← prev.evalExpr stp
          let stop ← liftExc ev.scalarDouble
          let step ←
            match stepE with
            | none => pure (1 : ℚ)
            | some se => do
              let w ← prev.evalExpr se
              liftExc w.scalarDouble
          liftExc (Value.matrix <$> generateRange start step stop)

      -- `Interpreter::callFunction` (interpreter.cpp:750-769): builtins
      -- first, then user functions.  The trailing `.m`-file search
      -- (`findFileFunction`) reads the file system — an external
      -- collaborator — and is modelled as always finding nothing.
      callFunction := fun name args => do
        let st ← getSt
        match ctx.builtins.lookup name with
        | some bf => liftExc (bf args)
        | none =>
          match st.funcs.lookup name with
          | some fd => prev.callUserFunction fd args 1
          | none => throwRt ("Undefined function '" ++ name ++ "'")

      -- `Interpreter::callUserFunction` (interpreter.cpp:771-817): fresh
      -- child of the GLOBAL scope (not of the caller's scope); bind what
      -- parameters the arguments cover; seed nargin/nargout; pre-seed
      -- declared returns with empty; run the body catching only
      -- ReturnSignal; the result is the first declared return's binding
      -- (multi-return is NOT propagated: both the single- and
      -- multi-return branches read `returns[0]`).  On an exception or a
      -- stray break/continue the saved environment is NOT restored
      -- (matching the absence of a scope guard in the source).  The
      -- restore transplants the possibly updated global scope back into
      -- the saved chain, modelling the shared `globalEnv_` pointer.
      callUserFunction := fun f args nargout => do
        let st0 ← getSt
        let savedEnv := st0.env
        modifySt fun st => { st with env := Env.child [] [] savedEnv.root }
        bindParams f.params args
        envSetM "nargin" (Value.makeScalar args.length)
        envSetM "nargout" (Value.makeScalar nargout)
        seedAbsent f.returns
        catchReturn (prev.execStmts f.body)
        let st2 ← getSt
        let result :=
          match f.returns with
          | [] => Value.empty
          | r0 :: _ => (st2.env.get r0).getD Value.empty
        modifySt fun st => { st with env := savedEnv.replaceRoot st.env.root }
        pure result

      -- `Interpreter::callFuncHandle` (interpreter.cpp:819-827).
      callFuncHandleF := fun impl args =>
        match impl with
        | .builtinFn name =>
          match ctx.builtins.lookup name with
          | some bf => liftExc (bf args)
          | none => throwRt "Invalid function handle"
        | .userFn fd => prev.callUserFunction fd args 1

      -- `Interpreter::executeStmt` (interpreter.cpp:82-100) with the
      -- per-kind executors inlined at their dispatch sites.
      execStmt := fun s =>
        match s with
        | .exprStmt e pr => do
          -- execExprStmt (interpreter.cpp:106-113); display goes to the
          -- external output sink
          let val ← prev.evalExpr e
          if pr ∧ ¬ val.isEmptyV then envSetM "ans" val else pure ()
        | .assign target value pr => prev.execAssignF target value pr
        | .multiAssign targets value _ => do
          -- execMultiAssign (interpreter.cpp:143-165); the printResult
          -- loop only re-reads bindings for display
          let val ← prev.evalExpr value
          multiAssignTargets targets 0 val
        | .ifStmt branches => prev.execIfBranches branches
        | .forStmt v range body => do
          -- execFor (interpreter.cpp:183-206): iterate over COLUMNS
          let rangeVal ← prev.evalExpr range
          if rangeVal.isMatrix ∨ rangeVal.isLogical then
            prev.execForCols v rangeVal.matrixField body
              (List.range rangeVal.matrixField.cols)
          else throwRt "For loop requires numeric range"
        | .whileStmt c body => prev.execWhileLoop c body
        | .switchStmt e cases => do
          -- execSwitch (interpreter.cpp:223-248)
          let val ← prev.evalExpr e
          prev.execSwitchCases val cases
        | .tryCatch tb cv cb => fun st =>
          -- execTryCatch (interpreter.cpp:250-271): only the two
          -- exception kinds are caught; BreakSignal/ContinueSignal/
          -- ReturnSignal are not exceptions and pass through untouched.
          match prev.execStmts tb st with
          | .ok st' _ => .ok st' ()
          | .thrown st' e =>
            let st'' :=
              if cv ≠ "" then
                { st' with env := st'.env.set cv (.structV
                    [("identifier", .str e.identifier),
                     ("message", .str e.message)]) }
              else st'
            prev.execStmts cb st''
          | .signal st' sg => .signal st' sg
          | .fuelOut => .fuelOut
        | .returnStmt => raiseSignal .ret
        | .breakStmt => raiseSignal .brk
        | .continueStmt => raiseSignal .cont
        | .globalStmt names => declareGlobals names
        | .persistentStmt names => seedAbsent names
        | .funcDef f => modifySt fun st =>
            { st with funcs := assocSet st.funcs f.name f }

      -- `Interpreter::execAssign` (interpreter.cpp:115-141): the value is
      -- evaluated once, then the target shape dispatches.
      execAssignF := fun target value _pr => do
        let v ← prev.evalExpr value
        match target with
        | .ident name => envSetM name v
        | .call callee argsE => prev.assignIndexedF callee argsE v
        | .dot obj field => assignDotF obj field v
        | .cellIndex obj idxs => prev.assignCellIndexF obj idxs v
        | _ => throwRt "Invalid assignment target"

      -- `Interpreter::assignIndexed` (interpreter.cpp:833-892).  Indices
      -- below 1 make the source compute a wrapped-around `size_t` and
      -- then allocate or write wildly; that undefined behaviour surfaces
      -- here as an explicit fault marker.
      assignIndexedF := fun callee argsE value =>
        match callee with
        | .ident name => do
          let st ← getSt
          let var := st.env.get name
          let indices ← prev.evalArgs argsE
          let fresh := var.isNone ∨ (var.getD .empty).isEmptyV
          if fresh ∧ indices.length = 2 ∧ (indices.headD .empty).isScalarV ∧
              ((indices.drop 1).headD .empty).isScalarV then do
            let r := castIdx (scalarDirect (indices.headD .empty))
            let c := castIdx (scalarDirect ((indices.drop 1).headD .empty))
            let m := Matrix.ofZeros r.toNat c.toNat
            let m ←
              if value.isScalarV then
                if r ≤ 0 ∨ c ≤ 0 then
                  (throwRt "unmodelled size_t wraparound (undefined behaviour)" :
                    M Matrix)
                else pure (m.setAt (r.toNat - 1) (c.toNat - 1) (scalarDirect value))
              else pure m
            envSetM name (.matrix m)
          else if var.isSome ∧ (var.getD .empty).isNumeric then do
            let mat := (var.getD .empty).matrixField
            let mat ←
              if indices.length = 1 ∧ (indices.headD .empty).isScalarV then do
                let idx : ℤ := castIdx (scalarDirect (indices.headD .empty)) - 1
                if idx < 0 then
                  (throwRt "unmodelled size_t wraparound (undefined behaviour)" :
                    M Matrix)
                else do
                  let mat := if (mat.numel : ℤ) ≤ idx then mat.growLin idx.toNat
                    else mat
                  let sv ← liftExc value.scalarDouble
                  pure (mat.setLin idx.toNat sv)
              else if indices.length = 2 ∧ (indices.headD .empty).isScalarV ∧
                  ((indices.drop 1).headD .empty).isScalarV then do
                let r : ℤ := castIdx (scalarDirect (indices.headD .empty)) - 1
                let c : ℤ := castIdx (scalarDirect ((indices.drop 1).headD .empty)) - 1
                if r < 0 ∨ c < 0 then
                  (throwRt "unmodelled size_t wraparound (undefined behaviour)" :
                    M Matrix)
                else do
                  let newRows := max mat.rows (r.toNat + 1)
                  let newCols := max mat.cols (c.toNat + 1)
                  let mat := if mat.rows < newRows ∨ mat.cols < newCols then
                      mat.grow2 newRows newCols
                    else mat
                  let sv ← liftExc value.scalarDouble
                  pure (mat.setAt r.toNat c.toNat sv)
              else pure mat
            envSetM name (.matrix mat)
          else pure ()
        | _ => throwRt "Invalid indexed assignment target"

      -- `Interpreter::assignCellIndex` (interpreter.cpp:915-952).
      assignCellIndexF := fun obj idxs value =>
        match obj with
        | .ident name => do
          let st ← getSt
          match st.env.get name with
          | none => prev.assignCellFresh name idxs value
          | some o =>
            if o.isEmptyV then prev.assignCellFresh name idxs value
            else
              match o with
              | .cell rows cols data => do
                let indices ← prev.evalArgs idxs
                if indices.length = 1 ∧ (indices.headD .empty).isScalarV then do
                  let i : ℤ := castIdx (scalarDirect (indices.headD .empty)) - 1
                  if i < 0 then
                    throwRt "unmodelled size_t wraparound (undefined behaviour)"
                  else do
                    let (cols, data) :=
                      if (data.length : ℤ) ≤ i then
                        (i.toNat + 1,
                          data ++ List.replicate (i.toNat + 1 - data.length) none)
                      else (cols, data)
                    envSetM name (.cell rows cols (data.set i.toNat (some value)))
                else envSetM name (.cell rows cols data)
              | _ => pure ()
        | _ => throwRt "Cell index assignment requires an identifier"

      -- The fresh-cell branch of `assignCellIndex` (interpreter.cpp:922-936):
      -- one scalar index builds a 1×i cell with slot i filled; any other
      -- index shape binds the default (0×0) cell.
      assignCellFresh := fun name idxs value => do
        let indices ← prev.evalArgs idxs
        if indices.length = 1 ∧ (indices.headD .empty).isScalarV then do
          let i : ℤ := castIdx (scalarDirect (indices.headD .empty))
          if i ≤ 0 then throwRt "unmodelled size_t wraparound (undefined behaviour)"
          else
            envSetM name (.cell 1 i.toNat
              ((List.replicate i.toNat none).set (i.toNat - 1) (some value)))
        else envSetM name (.cell 0 0 [])

      -- `Interpreter::execIf` (interpreter.cpp:167-181): first truthy (or
      -- bare else) branch runs, the rest are skipped.
      execIfBranches := fun branches =>
        match branches with
        | [] => pure ()
        | (condE, body) :: rest =>
          match condE with
          | none => prev.execStmts body
          | some c => do
            let cv ← prev.evalExpr c
            let b ← liftExc cv.toBool
            if b then prev.execStmts body else prev.execIfBranches rest

      -- The case loop of `Interpreter::execSwitch` (interpreter.cpp:226-247).
      execSwitchCases := fun val cases =>
        match cases with
        | [] => pure ()
        | (caseE, body) :: rest =>
          match caseE with
          | none => prev.execStmts body
          | some ce => do
            let caseVal ← prev.evalExpr ce
            if switchMatches val caseVal then prev.execStmts body
            else prev.execSwitchCases val rest

      -- The column loop of `Interpreter::execFor` (interpreter.cpp:186-202):
      -- bind the loop variable to the j-th scalar (row-vector range) or
      -- column, run the body; BreakSignal stops the loop, ContinueSignal
      -- moves to the next column, anything else propagates.
      execForCols := fun v mat body js =>
        match js with
        | [] => pure ()
        | j :: rest => do
          envSetM v (if mat.rows = 1 then Value.makeScalar (mat.get 0 j)
            else .matrix (mat.getCol j))
          fun st =>
            match prev.execStmts body st with
            | .ok st' _ => prev.execForCols v mat body rest st'
            | .signal st' .brk => .ok st' ()
            | .signal st' .cont => prev.execForCols v mat body rest st'
            | .signal st' .ret => .signal st' .ret
            | .thrown st' e => .thrown st' e
            | .fuelOut => .fuelOut

      -- `Interpreter::execWhile` (interpreter.cpp:208-221): the condition
      -- is re-evaluated (and re-coerced with `toBool`) before every
      -- iteration; BreakSignal ends the loop, ContinueSignal re-enters
      -- it, other signals and errors propagate.
      execWhileLoop := fun c body => do
        let cv ← prev.evalExpr c
        let b ← liftExc cv.toBool
        if ¬ b then pure ()
        else fun st =>
          match prev.execStmts body st with
          | .ok st' _ => prev.execWhileLoop c body st'
          | .signal st' .brk => .ok st' ()
          | .signal st' .cont => prev.execWhileLoop c body st'
          | .signal st' .ret => .signal st' .ret
          | .thrown st' e => .thrown st' e
          | .fuelOut => .fuelOut

      -- Statement-list execution (the `for (auto& s : ...) executeStmt(s)`
      -- loops).
      execStmts := fun ss =>
        match ss with
        | [] => pure ()
        | s :: rest => do
          prev.execStmt s
          prev.execStmts rest }

/-! Named entry points (`Interpreter::` member functions), each at a given
fuel level. -/

def evalExpr (ctx : Ctx) (fuel : ℕ) (e : Expr) : M Value :=
  (interpStep ctx fuel).evalExpr e

def evalIdentifierF (ctx : Ctx) (fuel : ℕ) (name : String) : M Value :=
  (interpStep ctx fuel).evalIdentifierF name

def evalArgs (ctx : Ctx) (fuel : ℕ) (es : List Expr) : M (List Value) :=
  (interpStep ctx fuel).evalArgs es

def evalCallF (ctx : Ctx) (fuel : ℕ) (callee : Expr) (argsE : List Expr) : M Value :=
  (interpStep ctx fuel).evalCallF callee argsE

def evalColonF (ctx : Ctx) (fuel : ℕ) (startE stepE stopE : Option Expr) : M Value :=
  (interpStep ctx fuel).evalColonF startE stepE stopE

def callFunction (ctx : Ctx) (fuel : ℕ) (name : String) (args : List Value) : M Value :=
  (interpStep ctx fuel).callFunction name args

def callUserFunction (ctx : Ctx) (fuel : ℕ) (f : FunctionDef) (args : List Value)
    (nargout : ℕ) : M Value :=
  (interpStep ctx fuel).callUserFunction f args nargout

def execStmt (ctx : Ctx) (fuel : ℕ) (s : Stmt) : M Unit :=
  (interpStep ctx fuel).execStmt s

def execStmts (ctx : Ctx) (fuel : ℕ) (ss : List Stmt) : M Unit :=
  (interpStep ctx fuel).execStmts ss

def execWhileLoop (ctx : Ctx) (fuel : ℕ) (c : Expr) (body : List Stmt) : M Unit :=
  (interpStep ctx fuel).execWhileLoop c body

def execForCols (ctx : Ctx) (fuel : ℕ) (v : String) (mat : Matrix) (body : List Stmt)
    (js : List ℕ) : M Unit :=
  (interpStep ctx fuel).execForCols v mat body js

/-! ## Stepping lemmas and shared fixtures for the claim theorems -/

/-- An interpreter context with no registered builtins. -/
def noBuiltins : Ctx := ⟨[]⟩

/-- A fresh interpreter state: empty global scope, no user functions. -/
def initState : IState := ⟨.rootE [] [], []⟩

/-- A state in which `A` is the 2×2 matrix `[1 2; 3 4]`. -/
def stateA : IState := ⟨.rootE [("A", .matrix ⟨2, 2, [1, 2, 3, 4]⟩)] [], []⟩

theorem M_bind_def {α β : Type} (m : M α) (f : α → M β) : m >>= f = M.bind m f := rfl

theorem M_bind_ok {α β : Type} {m : M α} {st st' : IState} {a : α} (f : α → M β)
    (h : m st = .ok st' a) : M.bind m f st = f a st' := by
  simp [M.bind, h]

theorem M_bind_thrown {α β : Type} {m : M α} {st st' : IState} {e : Err} (f : α → M β)
    (h : m st = .thrown st' e) : M.bind m f st = .thrown st' e := by
  simp [M.bind, h]

theorem M_pure_def {α : Type} (a : α) (st : IState) : (pure a : M α) st = .ok st a := rfl

theorem liftExc_ok {α : Type} {e : Except String α} {a : α} (h : e = .ok a)
    (st : IState) : liftExc e st = .ok st a := by
  rw [h]
  rfl

theorem liftExc_error {α : Type} {e : Except String α} {msg : String}
    (h : e = .error msg) (st : IState) : liftExc e st = .thrown st (.rt msg) := by
  rw [h]
  rfl

/-! ## Claim C2 -/

/-- C2 (code_bug): the claim says every out-of-range indexing read raises
"Index exceeds array dimensions".  The one-argument (linear) path does —
with `A = [1 2; 3 4]`, `A(5)` raises exactly that error — but the
two-argument path performs no bounds check at all: `A(1, 3)`, whose column
index 3 exceeds the column count 2, reads the backing store at flat offset
`0 * 2 + 2` and returns `3` (the element stored at `A(2,1)`) instead of
raising.  This theorem evaluates the embedded interpreter at both inputs. -/
theorem claim_C2_code_eval :
    stateA.env.get "A" = some (.matrix ⟨2, 2, [1, 2, 3, 4]⟩) ∧
    evalExpr noBuiltins 50 (.call (.ident "A") [.num 1 0 false, .num 3 0 false]) stateA
      = .ok stateA (Value.makeScalar 3) ∧
    evalExpr noBuiltins 50 (.call (.ident "A") [.num 5 0 false]) stateA
      = .thrown stateA (.rt "Index exceeds array dimensions") :=
  ⟨rfl, rfl, rfl⟩

/-! ## Claim C8 -/

/-- C8 counterexample: the claim says a `while` condition that is neither a
numeric nor a logical matrix raises a runtime error.  A string condition
refutes it: `while 'a', break; end` runs without any error (the string
coerces to true via `Value::toBool` and the loop body's `break` ends the
loop normally). -/
theorem claim_C8_counterexample :
    (Value.str "a").isNumeric = false ∧
    (Value.str "a").toBool = .ok true ∧
    execStmt noBuiltins 50 (.whileStmt (.strLit "a") [.breakStmt]) initState
      = .ok initState () :=
  ⟨rfl, rfl, rfl⟩

/-- C8 (amended): executing a while statement re-evaluates its condition
expression before every iteration; whenever the condition evaluates to a
cell array, struct, function handle, or empty value, a runtime error
("Cannot convert value to logical") is raised; numeric and logical matrix
conditions are coerced (true iff non-empty with every element nonzero) and
string conditions are also coerced (true iff non-empty) rather than
raising. -/
theorem claim_C8_amended :
    (∀ v : Value, (v.isCellArray ∨ v.isStruct ∨ v.isFuncHandle ∨ v.isEmptyV) →
      v.toBool = .error "Cannot convert value to logical") ∧
    (∀ s : String, (Value.str s).toBool = .ok (!s.isEmpty)) ∧
    (∀ m : Matrix, (Value.matrix m).toBool = .ok (m.data.all (· ≠ 0) && !m.data.isEmpty)) ∧
    (∀ m : Matrix, (Value.logical m).toBool = .ok (m.data.all (· ≠ 0) && !m.data.isEmpty)) ∧
    (∀ (ctx : Ctx) (fuel : ℕ) (c : Expr) (body : List Stmt) (st st1 : IState)
        (cv : Value) (msg : String),
      evalExpr ctx fuel c st = .ok st1 cv → cv.toBool = .error msg →
      execWhileLoop ctx (fuel + 1) c body st = .thrown st1 (.rt msg)) ∧
    (∀ (ctx : Ctx) (fuel : ℕ) (c : Expr) (body : List Stmt) (st st1 st2 : IState)
        (cv : Value),
      evalExpr ctx fuel c st = .ok st1 cv → cv.toBool = .ok true →
      execStmts ctx fuel body st1 = .ok st2 () →
      execWhileLoop ctx (fuel + 1) c body st = execWhileLoop ctx fuel c body st2) ∧
    (∀ (ctx : Ctx) (fuel : ℕ) (c : Expr) (body : List Stmt),
      execStmt ctx (fuel + 1) (.whileStmt c body) = execWhileLoop ctx fuel c body) := by
  refine ⟨?_, ?_, ?_, ?_, ?_, ?_, ?_⟩
  · intro v hv
    cases v <;> first
      | rfl
      | simp [Value.isCellArray, Value.isStruct, Value.isFuncHandle, Value.isEmptyV] at hv
  · intro s
    rfl
  · intro m
    rfl
  · intro m
    rfl
  · intro ctx fuel c body st st1 cv msg h1 h2
    show M.bind (evalExpr ctx fuel c)
      (fun cv => M.bind (liftExc cv.toBool) fun b => _) st = _
    rw [M_bind_ok _ h1, M_bind_thrown _ (liftExc_error h2 st1)]
  · intro ctx fuel c body st st1 st2 cv h1 h2 h3
    show M.bind (evalExpr ctx fuel c)
      (fun cv => M.bind (liftExc cv.toBool) fun b => _) st = _
    rw [M_bind_ok _ h1, M_bind_ok _ (liftExc_ok h2 st1)]
    show (match execStmts ctx fuel body st1 with
      | .ok st' _ => execWhileLoop ctx fuel c body st'
      | .signal st' .brk => .ok st' ()
      | .signal st' .cont => execWhileLoop ctx fuel c body st'
      | .signal st' .ret => .signal st' .ret
      | .thrown st' e => .thrown st' e
      | .fuelOut => .fuelOut) = _
    rw [h3]
  · intro ctx fuel c body
    rfl

/-! ## Claim C6 -/

/-- C6: `Environment::get` never consults the parent scope's ordinary
bindings: a name neither bound in the scope's own map nor declared global
there is reported not found regardless of the parent chain; a name
declared global resolves in the single shared root (global) scope; and an
identifier reference with no such variable and no function of that name
raises "Undefined variable or function". -/
theorem claim_C6 :
    (∀ (vs : List (String × Value)) (gs : List String) (p : Env) (name : String),
      vs.lookup name = none → name ∉ gs → (Env.child vs gs p).get name = none) ∧
    (∀ (vs : List (String × Value)) (gs : List String) (p : Env) (name : String),
      vs.lookup name = none → name ∈ gs →
      (Env.child vs gs p).get name = ((Env.child vs gs p).root).vars.lookup name) ∧
    (∀ e : Env, (e.root).parent = none) ∧
    (∀ (ctx : Ctx) (fuel : ℕ) (name : String) (st : IState),
      st.env.get name = none → isKnownFunction ctx st name = false →
      evalIdentifierF ctx (fuel + 1) name st =
        .thrown st (.rt ("Undefined variable or function '" ++ name ++ "'"))) := by
  refine ⟨?_, ?_, Env.root_isRoot, ?_⟩
  · intro vs gs p name h1 h2
    simp [Env.get, Env.vars, Env.globals, h1, h2]
  · intro vs gs p name h1 h2
    simp [Env.get, Env.vars, Env.globals, Env.parent, h1, h2, Env.root]
  · intro ctx fuel name st h1 h2
    have e1 : evalIdentifierF ctx (fuel + 1) name st =
        (match st.env.get name with
          | some v => (pure v : M Value)
          | none =>
            if isKnownFunction ctx st name then callFunction ctx fuel name []
            else throwRt ("Undefined variable or function '" ++ name ++ "'")) st := rfl
    rw [e1, h1, h2]
    rfl

/-- C6 witness: a concrete child scope whose parent binds `x`; the child's
lookup still reports `x` unbound, while the parent itself resolves it. -/
theorem claim_C6_witness :
    (Env.child [] [] (.rootE [("x", Value.makeScalar 7)] [])).get "x" = none ∧
    (Env.rootE [("x", Value.makeScalar 7)] []).get "x" = some (Value.makeScalar 7) ∧
    evalIdentifierF noBuiltins 50 "zzz" initState
      = .thrown initState (.rt "Undefined variable or function 'zzz'") :=
  ⟨claim_C6.1 [] [] (.rootE [("x", Value.makeScalar 7)] []) "x" rfl (List.not_mem_nil _),
    rfl,
    claim_C6.2.2.2 noBuiltins 49 "zzz" initState rfl rfl⟩

/-! ## Claim C5 -/

/-- C5: a break, continue, or return signal raised inside a try body is
never intercepted by that try/catch — the catch body does not run, no
catch variable is bound (the state is passed through untouched), and the
signal propagates; only the two exception kinds enter the catch clause.
Break is absorbed by the nearest enclosing loop (shown for the while loop
and, concretely, for a for loop whose body breaks out of a try on the
first iteration), and return is absorbed at the function-call boundary
(`catchReturn`, which passes every other signal through). -/
theorem claim_C5 :
    (∀ (ctx : Ctx) (fuel : ℕ) (tb : List Stmt) (cv : String) (cb : List Stmt)
        (st st' : IState) (sg : Signal),
      execStmts ctx fuel tb st = .signal st' sg →
      execStmt ctx (fuel + 1) (.tryCatch tb cv cb) st = .signal st' sg) ∧
    (∀ (ctx : Ctx) (fuel : ℕ) (tb : List Stmt) (cv : String) (cb : List Stmt)
        (st st' : IState) (e : Err),
      execStmts ctx fuel tb st = .thrown st' e →
      execStmt ctx (fuel + 1) (.tryCatch tb cv cb) st =
        execStmts ctx fuel cb
          (if cv ≠ "" then
            { st' with env := st'.env.set cv (.structV
                [("identifier", .str e.identifier), ("message", .str e.message)]) }
          else st')) ∧
    (∀ (ctx : Ctx) (fuel : ℕ) (c : Expr) (body : List Stmt) (st st1 st2 : IState)
        (cv : Value),
      evalExpr ctx fuel c st = .ok st1 cv → cv.toBool = .ok true →
      execStmts ctx fuel body st1 = .signal st2 .brk →
      execWhileLoop ctx (fuel + 1) c body st = .ok st2 ()) ∧
    (∀ (m : M Unit) (st st' : IState), m st = .signal st' .ret →
      catchReturn m st = .ok st' ()) ∧
    (∀ (m : M Unit) (st st' : IState) (sg : Signal), sg ≠ .ret →
      m st = .signal st' sg → catchReturn m st = .signal st' sg) ∧
    execStmt noBuiltins 50
      (.forStmt "i" (.colonE (some (.num 1 0 false)) none (some (.num 5 0 false)))
        [.tryCatch [.breakStmt] "e" [.assign (.ident "x") (.num 9 0 false) false]])
      initState = .ok ⟨.rootE [("i", Value.makeScalar 1)] [], []⟩ () := by
  refine ⟨?_, ?_, ?_, ?_, ?_, rfl⟩
  · intro ctx fuel tb cv cb st st' sg h
    have e1 : execStmt ctx (fuel + 1) (.tryCatch tb cv cb) st =
        (match execStmts ctx fuel tb st with
          | .ok st' _ => .ok st' ()
          | .thrown st' e =>
            execStmts ctx fuel cb
              (if cv ≠ "" then
                { st' with env := st'.env.set cv (.structV
                    [("identifier", .str e.identifier), ("message", .str e.message)]) }
              else st')
          | .signal st' sg => .signal st' sg
          | .fuelOut => .fuelOut) := rfl
    rw [e1, h]
  · intro ctx fuel tb cv cb st st' e h
    have e1 : execStmt ctx (fuel + 1) (.tryCatch tb cv cb) st =
        (match execStmts ctx fuel tb st with
          | .ok st' _ => .ok st' ()
          | .thrown st' e =>
            execStmts ctx fuel cb
              (if cv ≠ "" then
                { st' with env := st'.env.set cv (.structV
                    [("identifier", .str e.identifier), ("message", .str e.message)]) }
              else st')
          | .signal st' sg => .signal st' sg
          | .fuelOut => .fuelOut) := rfl
    rw [e1, h]
  · intro ctx fuel c body st st1 st2 cv h1 h2 h3
    show M.bind (evalExpr ctx fuel c)
      (fun cv => M.bind (liftExc cv.toBool) fun b => _) st = _
    rw [M_bind_ok _ h1, M_bind_ok _ (liftExc_ok h2 st1)]
    show (match execStmts ctx fuel body st1 with
      | .ok st' _ => execWhileLoop ctx fuel c body st'
      | .signal st' .brk => .ok st' ()
      | .signal st' .cont => execWhileLoop ctx fuel c body st'
      | .signal st' .ret => .signal st' .ret
      | .thrown st' e => .thrown st' e
      | .fuelOut => .fuelOut) = _
    rw [h3]
  · intro m st st' h
    simp [catchReturn, h]
  · intro m st st' sg hne h
    cases sg with
    | ret => exact absurd rfl hne
    | brk => simp [catchReturn, h]
    | cont => simp [catchReturn, h]

/-- C5 witness: the signal-passthrough parts applied at a try body that
breaks, a try body that raises, and a returning computation. -/
theorem claim_C5_witness :
    execStmt noBuiltins 3 (.tryCatch [.breakStmt] "e" [.returnStmt]) initState
      = .signal initState .brk ∧
    execWhileLoop noBuiltins 11 (.num 1 0 false) [.breakStmt] initState
      = .ok initState () ∧
    catchReturn (raiseSignal .ret) initState = .ok initState () := by
  refine ⟨?_, ?_, ?_⟩
  · exact claim_C5.1 noBuiltins 2 [.breakStmt] "e" [.returnStmt] initState initState
      .brk rfl
  · exact claim_C5.2.2.1 noBuiltins 10 (.num 1 0 false) [.breakStmt] initState
      initState initState (Value.makeScalar 1) rfl rfl rfl
  · exact claim_C5.2.2.2.1 (raiseSignal .ret) initState initState rfl

/-! ## Claim C7 -/

theorem assocSet_lookup_self {α : Type} (l : List (String × α)) (k : String) (v : α) :
    (assocSet l k v).lookup k = some v := by
  induction l with
  | nil => simp [assocSet, List.lookup]
  | cons p rest ih =>
    obtain ⟨k', v'⟩ := p
    by_cases h : k' = k
    · subst h
      simp [assocSet, List.lookup]
    · have hb : (k == k') = false := beq_eq_false_iff_ne.mpr (Ne.symm h)
      simp [assocSet, h, List.lookup, hb, ih]

theorem assocSet_lookup_ne {α : Type} (l : List (String × α)) (k m : String) (v : α)
    (h : m ≠ k) : (assocSet l k v).lookup m = l.lookup m := by
  have hb : (m == k) = false := beq_eq_false_iff_ne.mpr h
  induction l with
  | nil => simp [assocSet, List.lookup, hb]
  | cons p rest ih =>
    obtain ⟨k', v'⟩ := p
    by_cases h2 : k' = k
    · subst h2
      simp [assocSet, List.lookup, hb]
    · cases hm : m == k' <;> simp [assocSet, h2, List.lookup, hm, ih]

/-- In a root scope, `set` always writes the own map (the global
redirection needs a parent). -/
theorem rootE_set (vs : List (String × Value)) (gs : List String) (n : String)
    (v : Value) : (Env.rootE vs gs).set n v = .rootE (assocSet vs n v) gs := by
  simp [Env.set, Env.parent]

/-- In a root scope, `get` is exactly an own-map lookup. -/
theorem rootE_get (vs : List (String × Value)) (gs : List String) (n : String) :
    (Env.rootE vs gs).get n = vs.lookup n := by
  unfold Env.get
  have hv : Env.vars (Env.rootE vs gs) = vs := rfl
  rw [hv]
  cases h : vs.lookup n with
  | some v => rfl
  | none => simp [Env.parent]

/-- The effect of the `execMultiAssign` target loop on a root scope,
by induction over the targets. -/
theorem multiAssignTargets_root (v : Value) :
    ∀ (ts : List String) (i0 : ℕ) (vs : List (String × Value)) (gs : List String)
      (fns : List (String × FunctionDef)), ts.Nodup →
      ∃ vsF, multiAssignTargets ts i0 v ⟨.rootE vs gs, fns⟩ = .ok ⟨.rootE vsF gs, fns⟩ () ∧
        (∀ name, name ∉ ts → vsF.lookup name = vs.lookup name) ∧
        vsF.lookup "~" = vs.lookup "~" ∧
        (∀ k (hk : k < ts.length), ts.get ⟨k, hk⟩ ≠ "~" →
          vsF.lookup (ts.get ⟨k, hk⟩) = some (if i0 + k = 0 then v else Value.empty)) := by
  intro ts
  induction ts with
  | nil =>
    intro i0 vs gs fns _
    exact ⟨vs, rfl, fun _ _ => rfl, rfl, fun k hk => absurd hk (by simp)⟩
  | cons t rest ih =>
    intro i0 vs gs fns hnd
    have htn : t ∉ rest := (List.nodup_cons.mp hnd).1
    have hrest : rest.Nodup := (List.nodup_cons.mp hnd).2
    by_cases ht : t = "~"
    · -- the discard placeholder is skipped entirely
      obtain ⟨vsF, hrun, hun, htil, hidx⟩ := ih (i0 + 1) vs gs fns hrest
      refine ⟨vsF, ?_, ?_, htil, ?_⟩
      · have e1 : multiAssignTargets (t :: rest) i0 v ⟨.rootE vs gs, fns⟩ =
            multiAssignTargets rest (i0 + 1) v ⟨.rootE vs gs, fns⟩ := by
          simp [multiAssignTargets, ht, M_bind_def, M.bind, M_pure_def]
        rw [e1, hrun]
      · intro name hname
        exact hun name (fun hmem => hname (List.mem_cons_of_mem _ hmem))
      · intro k hk hne
        match k with
        | 0 => exact absurd ht (by simpa using hne)
        | k + 1 =>
          have h1 : i0 + 1 + k ≠ 0 := by omega
          have h2 : i0 + (k + 1) ≠ 0 := by omega
          have := hidx k (by simpa using hk) (by simpa using hne)
          rw [if_neg h1] at this
          simpa [List.get, if_neg h2] using this
    · -- ordinary target: bound now, untouched by the remaining sets
      set x := if i0 = 0 then v else Value.empty with hx
      obtain ⟨vsF, hrun, hun, htil, hidx⟩ := ih (i0 + 1) (assocSet vs t x) gs fns hrest
      refine ⟨vsF, ?_, ?_, ?_, ?_⟩
      · have e1 : multiAssignTargets (t :: rest) i0 v ⟨.rootE vs gs, fns⟩ =
            multiAssignTargets rest (i0 + 1) v
              ⟨(Env.rootE vs gs).set t x, fns⟩ := by
          by_cases hi : i0 = 0 <;>
            simp [multiAssignTargets, ht, hi, hx, M_bind_def, M.bind, envSetM, modifySt]
        rw [e1, rootE_set, hrun]
      · intro name hname
        have h1 : name ∉ rest := fun hmem => hname (List.mem_cons_of_mem _ hmem)
        have h2 : name ≠ t := fun he => hname (he ▸ List.mem_cons_self _ _)
        rw [hun name h1, assocSet_lookup_ne _ _ _ _ h2]
      · rw [htil, assocSet_lookup_ne _ _ _ _ (fun he => ht he.symm)]
      · intro k hk hne
        match k with
        | 0 =>
          have : vsF.lookup t = (assocSet vs t x).lookup t := hun t htn
          rw [show (t :: rest).get ⟨0, hk⟩ = t from rfl, this, assocSet_lookup_self]
          simp [hx, Nat.add_zero]
        | k + 1 =>
          have h1 : i0 + 1 + k ≠ 0 := by omega
          have h2 : i0 + (k + 1) ≠ 0 := by omega
          have := hidx k (by simpa using hk) (by simpa using hne)
          rw [if_neg h1] at this
          simpa [List.get, if_neg h2] using this

/-- C7: a multi-target assignment `[t1, t2, ...] = expr` evaluates `expr`
exactly once (the whole statement's effect is a pure target-binding pass
over the single evaluation's result state) and binds only the first target
to the resulting value; every later target is bound to the empty value; a
`~` target is skipped (its binding, if any, is untouched); names outside
the target list keep their bindings from the evaluation's result state.
Stated over a root-scope state (the top-level workspace). -/
theorem claim_C7 (ctx : Ctx) (fuel : ℕ) (targets : List String) (value : Expr)
    (pr : Bool) (st st' : IState) (v : Value) (vs : List (String × Value))
    (gs : List String)
    (heval : evalExpr ctx fuel value st = .ok st' v)
    (hnd : targets.Nodup) (henv : st'.env = .rootE vs gs) :
    ∃ vsF, execStmt ctx (fuel + 1) (.multiAssign targets value pr) st =
        .ok ⟨.rootE vsF gs, st'.funcs⟩ () ∧
      (∀ k (hk : k < targets.length), targets.get ⟨k, hk⟩ ≠ "~" →
        (Env.rootE vsF gs).get (targets.get ⟨k, hk⟩) =
          some (if k = 0 then v else Value.empty)) ∧
      (∀ name, name ∉ targets → (Env.rootE vsF gs).get name = st'.env.get name) ∧
      (Env.rootE vsF gs).get "~" = st'.env.get "~" := by
  obtain ⟨vsF, hrun, hun, htil, hidx⟩ :=
    multiAssignTargets_root v targets 0 vs gs st'.funcs hnd
  refine ⟨vsF, ?_, ?_, ?_, ?_⟩
  · show M.bind (evalExpr ctx fuel value)
      (fun val => multiAssignTargets targets 0 val) st = _
    rw [M_bind_ok _ heval]
    have : st' = ⟨.rootE vs gs, st'.funcs⟩ := by
      cases st'
      simp_all
    rw [this] at hrun ⊢
    exact hrun
  · intro k hk hne
    rw [rootE_get]
    simpa using hidx k hk hne
  · intro name hname
    rw [rootE_get, henv, rootE_get]
    exact hun name hname
  · rw [rootE_get, henv, rootE_get]
    exact htil

/-- C7 witness: `[a, b, ~] = 5` binds `a` to 5, `b` to empty, and leaves
`~` unbound. -/
theorem claim_C7_witness :
    ∃ vsF, execStmt noBuiltins 50 (.multiAssign ["a", "b", "~"] (.num 5 0 false) false)
        initState = .ok ⟨.rootE vsF [], []⟩ () ∧
      (Env.rootE vsF []).get "a" = some (Value.makeScalar 5) ∧
      (Env.rootE vsF []).get "b" = some Value.empty ∧
      (Env.rootE vsF []).get "~" = none := by
  obtain ⟨vsF, hrun, hidx, hun, htil⟩ :=
    claim_C7 noBuiltins 49 ["a", "b", "~"] (.num 5 0 false) false initState initState
      (Value.makeScalar 5) [] [] rfl (by decide) rfl
  refine ⟨vsF, hrun, ?_, ?_, ?_⟩
  · simpa using hidx 0 (by decide) (by decide)
  · simpa using hidx 1 (by decide) (by decide)
  · simpa [initState, rootE_get, List.lookup] using htil

/-- C8 witness: a cell-array condition raises, and an always-true numeric
condition re-enters the loop with the condition up for re-evaluation. -/
theorem claim_C8_amended_witness :
    execWhileLoop noBuiltins 11 (.cellLit [[.num 1 0 false]]) [] initState
      = .thrown initState (.rt "Cannot convert value to logical") ∧
    execWhileLoop noBuiltins 6 (.num 1 0 false) [] initState
      = execWhileLoop noBuiltins 5 (.num 1 0 false) [] initState := by
  constructor
  · exact claim_C8_amended.2.2.2.2.1 noBuiltins 10 (.cellLit [[.num 1 0 false]]) []
      initState initState (.cell 1 1 [some (Value.makeScalar 1)])
      "Cannot convert value to logical" rfl rfl
  · exact claim_C8_amended.2.2.2.2.2.1 noBuiltins 5 (.num 1 0 false) [] initState
      initState initState (Value.makeScalar 1) rfl rfl rfl

/-! ## Claim C1 -/

/-- The claimed shape rule for elementwise binary operations, in the
spec's words: identical shapes, or one side a 1×1 scalar, or shapes
agreeing on one axis with the other axis 1 on one side. -/
def broadcastOK (a b : Matrix) : Prop :=
  (a.rows = b.rows ∧ a.cols = b.cols) ∨
  (a.rows = 1 ∧ a.cols = 1) ∨ (b.rows = 1 ∧ b.cols = 1) ∨
  (a.rows = b.rows ∧ (a.cols = 1 ∨ b.cols = 1)) ∨
  (a.cols = b.cols ∧ (a.rows = 1 ∨ b.rows = 1))

instance (a b : Matrix) : Decidable (broadcastOK a b) := by
  unfold broadcastOK
  infer_instance

theorem broadcastCheck_ok_iff (a b : Matrix) :
    (∃ rc, Matrix.broadcastCheck a b = .ok rc) ↔ broadcastOK a b := by
  unfold Matrix.broadcastCheck broadcastOK
  split_ifs with h1 h2 h3 h4 h5 <;>
    simp_all [Matrix.isScalar]

theorem broadcastCheck_err (a b : Matrix) (h : ¬ broadcastOK a b) :
    Matrix.broadcastCheck a b = .error (Matrix.dimErrMsg a b) := by
  unfold Matrix.broadcastCheck
  unfold broadcastOK at h
  split_ifs with h1 h2 h3 h4 h5 <;> simp_all [Matrix.isScalar]

theorem broadcastBinOp_check_ok {f : ℚ → ℚ → ℚ} {a b : Matrix} {r c : ℕ}
    (h : Matrix.broadcastCheck a b = .ok (r, c)) :
    Matrix.broadcastBinOp f a b = .ok ⟨r, c, (List.range (r * c)).map fun idx =>
      f (a.getWithBroadcast (idx / c) (idx % c))
        (b.getWithBroadcast (idx / c) (idx % c))⟩ := by
  unfold Matrix.broadcastBinOp
  rw [h]
  rfl

theorem broadcastBinOp_check_err {f : ℚ → ℚ → ℚ} {a b : Matrix} {e : String}
    (h : Matrix.broadcastCheck a b = .error e) :
    Matrix.broadcastBinOp f a b = .error e := by
  unfold Matrix.broadcastBinOp
  rw [h]
  rfl

theorem broadcastBinOp_ok_iff (f : ℚ → ℚ → ℚ) (a b : Matrix) :
    (∃ m, Matrix.broadcastBinOp f a b = .ok m) ↔ broadcastOK a b := by
  rw [← broadcastCheck_ok_iff]
  cases h : Matrix.broadcastCheck a b with
  | ok rc =>
    obtain ⟨r, c⟩ := rc
    rw [broadcastBinOp_check_ok h]
    simp [h]
  | error e =>
    rw [broadcastBinOp_check_err h]
    simp [h]

theorem broadcastBinOp_err (f : ℚ → ℚ → ℚ) (a b : Matrix) (h : ¬ broadcastOK a b) :
    Matrix.broadcastBinOp f a b = .error (Matrix.dimErrMsg a b) := by
  unfold Matrix.broadcastBinOp
  rw [broadcastCheck_err a b h]
  rfl

theorem except_map_ok_iff (e : Except String Matrix) :
    (∃ v, Value.matrix <$> e = .ok v) ↔ ∃ m, e = .ok m := by
  cases e <;> simp [Except.map]

/-- C1 counterexample: the claim includes `&` among the operations that
must reject any shape combination outside the broadcast rule, but the
evaluator's AND/OR branch performs no shape check at all: combining a 2×1
column with a 1×3 row — a combination the rule rejects
(`broadcastCheck` raises the dimension error for it) — succeeds and
produces a 2×3 matrix. -/
theorem claim_C1_counterexample :
    ¬ broadcastOK ⟨2, 1, [1, 2]⟩ ⟨1, 3, [3, 4, 5]⟩ ∧
    Matrix.broadcastCheck ⟨2, 1, [1, 2]⟩ ⟨1, 3, [3, 4, 5]⟩
      = .error "Matrix dimensions must agree (2x1 vs 1x3)" ∧
    evalExpr noBuiltins 50
      (.binary .AND (.matrixLit [[.num 1 0 false], [.num 2 0 false]])
        (.matrixLit [[.num 3 0 false, .num 4 0 false, .num 5 0 false]]))
      initState = .ok initState (.matrix ⟨2, 3, [1, 1, 1, 1, 1, 1]⟩) :=
  ⟨by decide, rfl, rfl⟩

/-- C1 (amended): for the elementwise operations `+`, `-`, `.*`, `./`,
`.^` and the six comparisons, applied to two numeric matrices, evaluation
succeeds exactly when the shapes satisfy the broadcast rule, and any other
combination raises the runtime error naming both shapes.  The logical
operations `&`, `|`, `&&`, `||` perform no shape check: they always
succeed, producing a (max rows)×(max cols) result read through broadcast
element access. -/
theorem claim_C1_amended (op : TokenType) (a b : Matrix) :
    (op ∈ ([.PLUS, .MINUS, .DOT_STAR, .DOT_SLASH, .DOT_CARET,
        .EQ, .NE, .LT, .GT, .LE, .GE] : List TokenType) →
      ((∃ v, evalBinaryOp op (.matrix a) (.matrix b) = .ok v) ↔ broadcastOK a b) ∧
      (¬ broadcastOK a b →
        evalBinaryOp op (.matrix a) (.matrix b) = .error (Matrix.dimErrMsg a b))) ∧
    (op ∈ ([.AND, .SHORT_AND, .OR, .SHORT_OR] : List TokenType) →
      ∃ m : Matrix, evalBinaryOp op (.matrix a) (.matrix b) = .ok (.matrix m) ∧
        m.rows = max a.rows b.rows ∧ m.cols = max a.cols b.cols) := by
  constructor
  · intro hop
    have main : ∀ f : ℚ → ℚ → ℚ,
        ((∃ v, Value.matrix <$> Matrix.broadcastBinOp f a b = .ok v) ↔ broadcastOK a b) ∧
        (¬ broadcastOK a b →
          Value.matrix <$> Matrix.broadcastBinOp f a b = .error (Matrix.dimErrMsg a b)) := by
      intro f
      constructor
      · rw [except_map_ok_iff]
        exact broadcastBinOp_ok_iff f a b
      · intro h
        rw [broadcastBinOp_err f a b h]
        rfl
    fin_cases hop
    · exact main _
    · exact main _
    · exact main _
    · exact main _
    · exact main _
    · exact main _
    · exact main _
    · exact main _
    · exact main _
    · exact main _
    · exact main _
  · intro hop
    fin_cases hop
    · exact ⟨logicalAnd a b, rfl, rfl, rfl⟩
    · exact ⟨logicalAnd a b, rfl, rfl, rfl⟩
    · exact ⟨logicalOr a b, rfl, rfl, rfl⟩
    · exact ⟨logicalOr a b, rfl, rfl, rfl⟩

/-- C1 witness: the amended rule applied at `+` on 2×1 vs 1×3 (rejected
with the message naming both shapes) and at `&` on the same shapes
(accepted with a 2×3 result). -/
theorem claim_C1_amended_witness :
    evalBinaryOp .PLUS (.matrix ⟨2, 1, [1, 2]⟩) (.matrix ⟨1, 3, [3, 4, 5]⟩)
      = .error "Matrix dimensions must agree (2x1 vs 1x3)" ∧
    (∃ m : Matrix, evalBinaryOp .AND (.matrix ⟨2, 1, [1, 2]⟩) (.matrix ⟨1, 3, [3, 4, 5]⟩)
      = .ok (.matrix m) ∧ m.rows = 2 ∧ m.cols = 3) := by
  constructor
  · exact (claim_C1_amended .PLUS ⟨2, 1, [1, 2]⟩ ⟨1, 3, [3, 4, 5]⟩).1
      (by decide) |>.2 (by decide)
  · obtain ⟨m, hm, hr, hc⟩ := (claim_C1_amended .AND ⟨2, 1, [1, 2]⟩ ⟨1, 3, [3, 4, 5]⟩).2
      (by decide)
    exact ⟨m, hm, hr, hc⟩

/-! ## Claim C4 -/

/-- Any token `scanString` produces is a STRING token. -/
theorem scanString_type (d : Char) (i : List Char) (tok : Token) (r : List Char)
    (he : Lexer.scanString d i = .ok (tok, r)) : tok.type = .STRING := by
  unfold Lexer.scanString at he
  cases h : Lexer.scanStringLoop d (i.drop 1) with
  | ok p =>
    obtain ⟨s, rest⟩ := p
    rw [h] at he
    cases he
    rfl
  | error e =>
    rw [h] at he
    exact Except.noConfusion he

/-- At a quote character, `nextToken` emits TRANSPOSE or opens a string
literal purely according to `isTransposeContext` of the last emitted
token. -/
theorem nextToken_quote (fuel : ℕ) (rest : List Char) (lastType : TokenType) :
    Lexer.nextToken (fuel + 1) ('\'' :: rest) lastType =
      if Lexer.isTransposeContext lastType then .ok (Lexer.mkTok .TRANSPOSE "'", rest)
      else Lexer.scanString '\'' ('\'' :: rest) := rfl

/-- C4: the lexer emits a quote as a TRANSPOSE token exactly when the
previously emitted token (threaded as `lastType`, initially NEWLINE) is
one of identifier, number, `)`, `]`, `}`, TRANSPOSE, DOT_TRANSPOSE, the
`end` keyword, `true`, or `false`; in every other context the quote begins
a string literal.  Concretely, `x'` lexes as IDENTIFIER then TRANSPOSE and
a leading `'abc'` lexes as a STRING token with content `abc`. -/
theorem claim_C4 :
    (∀ t : TokenType, Lexer.isTransposeContext t = true ↔
      t ∈ ([.IDENTIFIER, .NUMBER, .RPAREN, .RBRACKET, .RBRACE,
        .TRANSPOSE, .DOT_TRANSPOSE, .END, .TRUE_KW, .FALSE_KW] : List TokenType)) ∧
    (∀ (fuel : ℕ) (rest : List Char) (lastType : TokenType),
      Lexer.nextToken (fuel + 1) ('\'' :: rest) lastType
          = .ok (Lexer.mkTok .TRANSPOSE "'", rest) ↔
        Lexer.isTransposeContext lastType = true) ∧
    Lexer.tokenize "x'" = .ok [Lexer.mkTok .IDENTIFIER "x",
      Lexer.mkTok .TRANSPOSE "'", Lexer.mkTok .EOF_TOKEN ""] ∧
    Lexer.tokenize "'abc'" = .ok [Lexer.mkTok .STRING "abc",
      Lexer.mkTok .EOF_TOKEN ""] := by
  refine ⟨?_, ?_, rfl, rfl⟩
  · intro t
    cases t <;> decide
  · intro fuel rest lastType
    constructor
    · intro h
      by_cases hc : Lexer.isTransposeContext lastType = true
      · exact hc
      · rw [nextToken_quote, if_neg hc] at h
        have := scanString_type '\'' ('\'' :: rest) _ _ h
        exact absurd this (by decide)
    · intro h
      rw [nextToken_quote, if_pos h]

/-! ## Claim C10 -/

/-- If the remaining input holds neither the delimiter nor a newline, the
string-scanning loop consumes it all and succeeds. -/
theorem scanStringLoop_eof (delim : Char) (body : List Char)
    (h : ∀ c ∈ body, c ≠ delim ∧ c ≠ '\n') :
    Lexer.scanStringLoop delim body = .ok (body, []) := by
  induction body with
  | nil => rfl
  | cons c rest ih =>
    have hc := h c (List.mem_cons_self _ _)
    have hr : ∀ x ∈ rest, x ≠ delim ∧ x ≠ '\n' :=
      fun x hx => h x (List.mem_cons_of_mem _ hx)
    unfold Lexer.scanStringLoop
    rw [if_neg hc.1, if_neg hc.2, ih hr]

/-- The string-scanning loop fails only by meeting a newline, and then
with the unterminated-string message (by strong induction on the input
length, since the escaped-delimiter case consumes two characters). -/
theorem scanStringLoop_err (delim : Char) :
    ∀ (n : ℕ) (input : List Char), input.length ≤ n → ∀ e : String,
      Lexer.scanStringLoop delim input = .error e →
      e = "Unterminated string literal" ∧ '\n' ∈ input := by
  intro n
  induction n with
  | zero =>
    intro input hlen e he
    rw [List.length_eq_zero.mp (Nat.le_zero.mp hlen)] at he
    exact Except.noConfusion he
  | succ n ih =>
    intro input hlen e he
    unfold Lexer.scanStringLoop at he
    split at he
    · exact Except.noConfusion he
    · next c rest =>
      split at he
      · -- c = delim
        split at he
        · -- rest = d :: rest2, then the escaped/closing split
          next d rest2 =>
          split at he
          · -- escaped delimiter: recurse two characters in
            split at he
            · exact Except.noConfusion he
            · rename_i e2 h3
              cases he
              have hlen2 : rest2.length ≤ n := by
                simp only [List.length_cons] at hlen
                omega
              obtain ⟨hmsg, hmem⟩ := ih rest2 hlen2 _ h3
              exact ⟨hmsg, List.mem_cons_of_mem _ (List.mem_cons_of_mem _ hmem)⟩
          · exact Except.noConfusion he
        · exact Except.noConfusion he
      · split at he
        · -- c = newline: the unterminated-string error
          next h1 h2 =>
          cases he
          exact ⟨rfl, h2 ▸ List.mem_cons_self _ _⟩
        · -- ordinary character: recurse one character in
          split at he
          · exact Except.noConfusion he
          · rename_i e2 h3
            cases he
            have hlen2 : rest.length ≤ n := by
              simp only [List.length_cons] at hlen
              omega
            obtain ⟨hmsg, hmem⟩ := ih rest hlen2 _ h3
            exact ⟨hmsg, List.mem_cons_of_mem _ hmem⟩

/-- C10: a string literal opened just before end of input raises no error:
`scanString` returns a STRING token containing all remaining characters
(so tokenizing such an input succeeds, e.g. `'abc`); the
unterminated-string lexical error arises only when a newline is met before
the closing delimiter. -/
theorem claim_C10 :
    (∀ (delim : Char) (body : List Char), (∀ c ∈ body, c ≠ delim ∧ c ≠ '\n') →
      Lexer.scanString delim (delim :: body)
        = .ok ({ type := .STRING, lexeme := String.mk body }, [])) ∧
    (∀ (delim : Char) (input : List Char) (e : String),
      Lexer.scanStringLoop delim input = .error e →
      e = "Unterminated string literal" ∧ '\n' ∈ input) ∧
    Lexer.tokenize "'abc" = .ok [Lexer.mkTok .STRING "abc",
      Lexer.mkTok .EOF_TOKEN ""] := by
  refine ⟨?_, ?_, rfl⟩
  · intro delim body h
    unfold Lexer.scanString
    rw [show (delim :: body).drop 1 = body from rfl, scanStringLoop_eof delim body h]
  · intro delim input e he
    exact scanStringLoop_err delim input.length input le_rfl e he

/-- C10 witness: the no-newline hypothesis discharged on the concrete body
`abc`. -/
theorem claim_C10_witness :
    Lexer.scanString '\'' ('\'' :: "abc".toList)
      = .ok ({ type := .STRING, lexeme := "abc" }, []) := by
  have := claim_C10.1 '\'' "abc".toList (by decide)
  simpa using this

/-! ## Claim C3 -/

/-- Closed form of the ascending accumulation loop: when the fuel `N`
counts exactly the accumulated values `v + k*step` passing the loop test,
the loop yields those `N` values in order, so the fuel bound is inert. -/
theorem rangeLoopUp_closed_form (step bound : ℚ) :
    ∀ (N : ℕ) (v : ℚ), (∀ k : ℕ, v + (k : ℚ) * step ≤ bound ↔ k < N) →
      rangeLoopUp step bound N v
        = (List.range N).map (fun k : ℕ => v + (k : ℚ) * step) := by
  intro N
  induction N with
  | zero => intro v _; rfl
  | succ n ih =>
    intro v hk
    have h0 : v ≤ bound := by
      have h := (hk 0).mpr (Nat.succ_pos n)
      simpa using h
    have hshift : ∀ k : ℕ, (v + step) + (k : ℚ) * step ≤ bound ↔ k < n := by
      intro k
      have h := hk (k + 1)
      rw [Nat.cast_add, Nat.cast_one] at h
      have he : v + ((k : ℚ) + 1) * step = (v + step) + (k : ℚ) * step := by ring
      rw [he] at h
      simpa [Nat.succ_lt_succ_iff] using h
    have hstep : rangeLoopUp step bound (n + 1) v
        = if v ≤ bound then v :: rangeLoopUp step bound n (v + step) else [] := rfl
    rw [hstep, if_pos h0, ih (v + step) hshift, List.range_succ_eq_map,
      List.map_cons, List.map_map]
    have hfun : ((fun k : ℕ => v + (k : ℚ) * step) ∘ Nat.succ)
        = fun k : ℕ => (v + step) + (k : ℚ) * step := by
      funext k
      simp only [Function.comp]
      push_cast
      ring
    rw [hfun]
    norm_num

/-- Closed form of the descending loop, mirroring
the ascending one. -/
theorem rangeLoopDown_closed_form (step bound : ℚ) :
    ∀ (N : ℕ) (v : ℚ), (∀ k : ℕ, bound ≤ v + (k : ℚ) * step ↔ k < N) →
      rangeLoopDown step bound N v
        = (List.range N).map (fun k : ℕ => v + (k : ℚ) * step) := by
  intro N
  induction N with
  | zero => intro v _; rfl
  | succ n ih =>
    intro v hk
    have h0 : v ≥ bound := by
      have h := (hk 0).mpr (Nat.succ_pos n)
      simpa using h
    have hshift : ∀ k : ℕ, bound ≤ (v + step) + (k : ℚ) * step ↔ k < n := by
      intro k
      have h := hk (k + 1)
      rw [Nat.cast_add, Nat.cast_one] at h
      have he : v + ((k : ℚ) + 1) * step = (v + step) + (k : ℚ) * step := by ring
      rw [he] at h
      simpa [Nat.succ_lt_succ_iff] using h
    have hstep : rangeLoopDown step bound (n + 1) v
        = if v ≥ bound then v :: rangeLoopDown step bound n (v + step) else [] := rfl
    rw [hstep, if_pos h0, ih (v + step) hshift, List.range_succ_eq_map,
      List.map_cons, List.map_map]
    have hfun : ((fun k : ℕ => v + (k : ℚ) * step) ∘ Nat.succ)
        = fun k : ℕ => (v + step) + (k : ℚ) * step := by
      funext k
      simp only [Function.comp]
      push_cast
      ring
    rw [hfun]
    norm_num

/-- For positive step, `start + k*step` passes the tolerance test exactly
for `k` below the iteration count `generateRange` computes. -/
theorem range_count_up (start step stop : ℚ) (h : 0 < step) (k : ℕ) :
    start + (k : ℚ) * step ≤ stop + step * (1 / 10 ^ 10)
      ↔ k < (⌊(stop + step * (1 / 10 ^ 10) - start) / step⌋ + 1).toNat := by
  have h1 : start + (k : ℚ) * step ≤ stop + step * (1 / 10 ^ 10)
      ↔ (k : ℚ) ≤ (stop + step * (1 / 10 ^ 10) - start) / step := by
    rw [le_div_iff₀ h]
    constructor <;> intro <;> linarith
  have h2 : (k : ℚ) ≤ (stop + step * (1 / 10 ^ 10) - start) / step
      ↔ (k : ℤ) ≤ ⌊(stop + step * (1 / 10 ^ 10) - start) / step⌋ := by
    rw [Int.le_floor, Int.cast_natCast]
  have h3 : (k : ℤ) ≤ ⌊(stop + step * (1 / 10 ^ 10) - start) / step⌋
      ↔ k < (⌊(stop + step * (1 / 10 ^ 10) - start) / step⌋ + 1).toNat := by
    constructor
    · intro hle
      exact Int.lt_toNat.mpr (by omega)
    · intro hlt
      have := Int.lt_toNat.mp hlt
      omega
  exact h1.trans (h2.trans h3)

/-- For negative step, the mirrored count. -/
theorem range_count_down (start step stop : ℚ) (h : step < 0) (k : ℕ) :
    stop + step * (1 / 10 ^ 10) ≤ start + (k : ℚ) * step
      ↔ k < (⌊(start - (stop + step * (1 / 10 ^ 10))) / (-step)⌋ + 1).toNat := by
  have hpos : 0 < -step := by linarith
  have h1 : stop + step * (1 / 10 ^ 10) ≤ start + (k : ℚ) * step
      ↔ (k : ℚ) ≤ (start - (stop + step * (1 / 10 ^ 10))) / (-step) := by
    rw [le_div_iff₀ hpos]
    constructor <;> intro <;> nlinarith
  have h2 : (k : ℚ) ≤ (start - (stop + step * (1 / 10 ^ 10))) / (-step)
      ↔ (k : ℤ) ≤ ⌊(start - (stop + step * (1 / 10 ^ 10))) / (-step)⌋ := by
    rw [Int.le_floor, Int.cast_natCast]
  have h3 : (k : ℤ) ≤ ⌊(start - (stop + step * (1 / 10 ^ 10))) / (-step)⌋
      ↔ k < (⌊(start - (stop + step * (1 / 10 ^ 10))) / (-step)⌋ + 1).toNat := by
    constructor
    · intro hle
      exact Int.lt_toNat.mpr (by omega)
    · intro hlt
      have := Int.lt_toNat.mp hlt
      omega
  exact h1.trans (h2.trans h3)

/-- C3: a zero step is a runtime error ("Step size cannot be zero", also
thrown when evaluating a colon expression); a nonzero step produces the
1×N row vector of the accumulated values `start, start+step, …`, keeping
exactly those within the `stop + step*1e-10` tolerance bound (from above
for positive step, from below for negative step); `1:5` (step defaulting
to 1) evaluates to the 1×5 vector `[1,2,3,4,5]` and `0:0.5:2` to a 1×5
vector whose third element is 1. -/
theorem claim_C3 :
    (∀ start stop : ℚ, generateRange start 0 stop = .error "Step size cannot be zero") ∧
    (evalExpr noBuiltins 50
        (.colonE (some (.num 1 0 false)) (some (.num 0 0 false)) (some (.num 5 0 false)))
        initState
      = .thrown initState (.rt "Step size cannot be zero")) ∧
    (∀ start step stop : ℚ, step ≠ 0 →
      ∃ vals : List ℚ,
        generateRange start step stop = .ok ⟨1, vals.length, vals⟩ ∧
        vals = (List.range vals.length).map (fun k : ℕ => start + (k : ℚ) * step) ∧
        (0 < step → ∀ k : ℕ,
          (k < vals.length ↔ start + (k : ℚ) * step ≤ stop + step * (1 / 10 ^ 10))) ∧
        (step < 0 → ∀ k : ℕ,
          (k < vals.length ↔ stop + step * (1 / 10 ^ 10) ≤ start + (k : ℚ) * step))) ∧
    (evalExpr noBuiltins 50
        (.colonE (some (.num 1 0 false)) none (some (.num 5 0 false))) initState
      = .ok initState (.matrix ⟨1, 5, [1, 2, 3, 4, 5]⟩)) ∧
    (evalExpr noBuiltins 50
        (.colonE (some (.num 0 0 false)) (some (.num (1/2) 0 false)) (some (.num 2 0 false)))
        initState
      = .ok initState (.matrix ⟨1, 5, [0, 1/2, 1, 3/2, 2]⟩)) ∧
    (Matrix.mk 1 5 [0, 1/2, 1, 3/2, 2]).getLin 2 = 1 := by
  refine ⟨?_, ?_, ?_, ?_, ?_, ?_⟩
  · intro start stop
    simp [generateRange]
  · rfl
  · intro start step stop hne
    rcases hne.lt_or_lt with hneg | hpos
    · refine ⟨rangeLoopDown step (stop + step * (1 / 10 ^ 10))
        (⌊(start - (stop + step * (1 / 10 ^ 10))) / (-step)⌋ + 1).toNat start, ?_, ?_, ?_, ?_⟩
      · rw [generateRange, if_neg hne, if_neg (not_lt.mpr hneg.le)]
      · rw [rangeLoopDown_closed_form step _ _ start
          (fun k => range_count_down start step stop hneg k)]
        simp
      · intro hpos'
        exact absurd hpos' (not_lt.mpr hneg.le)
      · intro _ k
        rw [rangeLoopDown_closed_form step _ _ start
          (fun k => range_count_down start step stop hneg k)]
        simp only [List.length_map, List.length_range]
        exact (range_count_down start step stop hneg k).symm
    · refine ⟨rangeLoopUp step (stop + step * (1 / 10 ^ 10))
        (⌊(stop + step * (1 / 10 ^ 10) - start) / step⌋ + 1).toNat start, ?_, ?_, ?_, ?_⟩
      · rw [generateRange, if_neg hne, if_pos hpos]
      · rw [rangeLoopUp_closed_form step _ _ start
          (fun k => range_count_up start step stop hpos k)]
        simp
      · intro _ k
        rw [rangeLoopUp_closed_form step _ _ start
          (fun k => range_count_up start step stop hpos k)]
        simp only [List.length_map, List.length_range]
        exact (range_count_up start step stop hpos k).symm
      · intro hneg'
        exact absurd hneg' (not_lt.mpr hpos.le)
  · rfl
  · rfl
  · rfl

/-- C3 witness: the nonzero-step hypothesis discharged at `1:1:5`. -/
theorem claim_C3_witness :
    generateRange 1 0 5 = .error "Step size cannot be zero" ∧
    ∃ vals : List ℚ,
      generateRange 1 1 5 = .ok ⟨1, vals.length, vals⟩ ∧
      vals = (List.range vals.length).map (fun k : ℕ => 1 + (k : ℚ) * 1) ∧
      (0 < (1 : ℚ) → ∀ k : ℕ,
        (k < vals.length ↔ 1 + (k : ℚ) * 1 ≤ 5 + 1 * (1 / 10 ^ 10))) ∧
      ((1 : ℚ) < 0 → ∀ k : ℕ,
        (k < vals.length ↔ 5 + 1 * (1 / 10 ^ 10) ≤ 1 + (k : ℚ) * 1)) :=
  ⟨claim_C3.1 1 5, claim_C3.2.2.1 1 1 5 (by norm_num)⟩

/-! ## Claim C9 -/

/-- Reading below the length of a range-map list applies the function. -/
theorem getD_range_map (n : ℕ) (f : ℕ → ℚ) (i : ℕ) (hi : i < n) :
    ((List.range n).map f).getD i 0 = f i := by
  rw [List.getD_eq_getElem?_getD, List.getElem?_map, List.getElem?_range hi]
  rfl

/-- The identity matrix reads as the Kronecker delta. -/
theorem eye_get (n i j : ℕ) (hn : 0 < n) (hi : i < n) (hj : j < n) :
    (Matrix.eye n).get i j = if i = j then 1 else 0 := by
  have hlt : i * n + j < n * n := by nlinarith
  have hdiv : (i * n + j) / n = i := by
    rw [Nat.add_comm, Nat.mul_comm, Nat.add_mul_div_left _ _ hn, Nat.div_eq_of_lt hj,
      Nat.zero_add]
  have hmod : (i * n + j) % n = j := by
    rw [Nat.add_comm, Nat.add_mul_mod_self_right, Nat.mod_eq_of_lt hj]
  rw [Matrix.get, Matrix.eye]
  show ((List.range (n * n)).map fun idx =>
    if idx / n = idx % n then (1 : ℚ) else 0).getD (i * n + j) 0 = _
  rw [getD_range_map _ _ _ hlt, hdiv, hmod]

/-- Summing a map over `List.range` is the `Finset.range` sum. -/
theorem list_sum_range (n : ℕ) (f : ℕ → ℚ) :
    ((List.range n).map f).sum = ∑ k in Finset.range n, f k := by
  rfl

/-- C9: multiplying any n×n matrix by `eye n` on the left under the
engine's matrix multiply returns a matrix of the same shape that agrees
with `A` at every in-range entry. -/
theorem claim_C9 (n : ℕ) (A : Matrix) (hn : 1 ≤ n)
    (hr : A.rows = n) (hc : A.cols = n) :
    ∃ B : Matrix, Matrix.matMul (Matrix.eye n) A = .ok B ∧
      B.rows = n ∧ B.cols = n ∧
      ∀ i j : ℕ, i < n → j < n → B.get i j = A.get i j := by
  rcases Nat.lt_or_ge n 2 with h2 | h2
  · have hn1 : n = 1 := by omega
    subst hn1
    have hd : A.data.map (· * (1 : ℚ)) = A.data := by simp
    refine ⟨Matrix.scalarMul A 1, ?_, ?_, ?_, ?_⟩
    · rw [Matrix.matMul, if_pos (by decide)]
      rfl
    · simpa [Matrix.scalarMul] using hr
    · simpa [Matrix.scalarMul] using hc
    · intro i j hi hj
      simp [Matrix.get, Matrix.scalarMul, hd]
  · have hnz : 0 < n := by omega
    have hne1 : n ≠ 1 := by omega
    have hA : A.isScalar = false := by
      rw [Matrix.isScalar, hr]
      simp [Nat.beq_eq, hne1]
    have hE : (Matrix.eye n).isScalar = false := by
      rw [Matrix.isScalar, Matrix.eye]
      simp [Nat.beq_eq, hne1]
    have hinner : ¬((Matrix.eye n).cols ≠ A.rows) := by
      rw [Matrix.eye, hr]
      simp
    refine ⟨⟨n, n, (List.range (n * n)).map fun idx =>
        Matrix.dotSum (Matrix.eye n) A (idx / n) (idx % n)⟩, ?_, rfl, rfl, ?_⟩
    · rw [Matrix.matMul, hE, hA]
      simp only [Bool.false_eq_true, if_false]
      rw [if_neg hinner, hc]
      rfl
    · intro i j hi hj
      have hlt : i * n + j < n * n := by nlinarith
      have hdiv : (i * n + j) / n = i := by
        rw [Nat.add_comm, Nat.mul_comm, Nat.add_mul_div_left _ _ hnz, Nat.div_eq_of_lt hj,
          Nat.zero_add]
      have hmod : (i * n + j) % n = j := by
        rw [Nat.add_comm, Nat.add_mul_mod_self_right, Nat.mod_eq_of_lt hj]
      rw [Matrix.get]
      show ((List.range (n * n)).map fun idx =>
        Matrix.dotSum (Matrix.eye n) A (idx / n) (idx % n)).getD (i * n + j) 0 = _
      rw [getD_range_map _ _ _ hlt, hdiv, hmod, Matrix.dotSum]
      have hcols : (Matrix.eye n).cols = n := rfl
      rw [hcols, list_sum_range]
      have hsum : ∀ k ∈ Finset.range n,
          (Matrix.eye n).get i k * A.get k j
            = if i = k then A.get k j else 0 := by
        intro k hk
        rw [eye_get n i k hnz hi (Finset.mem_range.mp hk)]
        split
        · rw [one_mul]
        · rw [zero_mul]
      rw [Finset.sum_congr rfl hsum, Finset.sum_ite_eq]
      rw [if_pos (Finset.mem_range.mpr hi)]

/-- C9 witness: the shape hypotheses discharged at `n = 2` on a concrete
2×2 matrix. -/
theorem claim_C9_witness :
    ∃ B : Matrix, Matrix.matMul (Matrix.eye 2) ⟨2, 2, [1, 2, 3, 4]⟩ = .ok B ∧
      B.rows = 2 ∧ B.cols = 2 ∧
      ∀ i j : ℕ, i < 2 → j < 2 →
        B.get i j = Matrix.get ⟨2, 2, [1, 2, 3, 4]⟩ i j :=
  claim_C9 2 ⟨2, 2, [1, 2, 3, 4]⟩ (by decide) rfl rfl

end MatFree
